import Mathlib

set_option maxRecDepth 40000

/-!
Shallow embedding of the mcp_cyberchef MCP server
(`src/mcp_cyberchef_service.py`, `src/data_models/cyberchef_pydantic_models.py`,
`src/data_models/tools.py`).

Conventions of the embedding:
* Python JSON-ish values are the inductive `Value` (numeric JSON values are
  modelled as `Int`; no claim touches fractional numerics).
* Python dicts are association lists in insertion order; `dict` assignment is
  `dictInsert` (overwrite in place, append when fresh), mirroring CPython's
  insertion-ordered dicts.
* The operation catalog `CYBERCHEF_OPERATIONS` is a parameter `Catalog`
  (the repository's `utils/js/operations.json` data file is not part of the
  sources); an operation's already-parsed argument schemas are `ArgDef`,
  mirroring the five pydantic `*ArgDef` models.
* External rapidfuzz scorers (`fuzz.WRatio`, `fuzz.partial_token_set_ratio`,
  and the blended `int(_score_op(...))`) are opaque `Nat`-valued parameters;
  `process.extract` is modelled as a stable sort by score descending followed
  by `take k`, which is all the source relies on.
* All recursion is structural or fueled so every definition evaluates inside
  the kernel on concrete inputs.
-/

/-- A JSON-like runtime value, as handled by the Python service. -/
inductive Value where
  | str (s : String)
  | int (n : Int)
  | bool (b : Bool)
  | null
  | list (xs : List Value)
  | obj (fields : List (String × Value))
deriving Repr

/-- Argument schema: the five pydantic `ArgDef` variants of
`cyberchef_pydantic_models.py` (`EnumArgDef`, `NumberArgDef`, `StringArgDef`,
`BooleanArgDef`, `BytesArgDef`). Numeric bounds are modelled over `Int`. -/
inductive ArgDef where
  | enum (argName : String) (options : List String) (required : Bool)
  | number (argName : String) (lo hi : Option Int) (required : Bool)
  | string (argName : String) (required : Bool)
  | boolean (argName : String) (required : Bool)
  | bytes (argName : String) (encodings : List String) (required : Bool)
deriving Repr, DecidableEq

/-- The `name` attribute of an argument schema. -/
def ArgDef.name : ArgDef → String
  | .enum n _ _ => n
  | .number n _ _ _ => n
  | .string n _ => n
  | .boolean n _ => n
  | .bytes n _ _ => n

/-- The `required` attribute of an argument schema. -/
def ArgDef.isRequired : ArgDef → Bool
  | .enum _ _ r => r
  | .number _ _ _ r => r
  | .string _ r => r
  | .boolean _ r => r
  | .bytes _ _ r => r

/-- The option labels the raw catalog entry carries for this argument:
`a.get("options", a.get("value", [])) or []` in `_enum_table` /
`get_operation_args`. Only enum arguments declare labels. -/
def ArgDef.rawOptions : ArgDef → List String
  | .enum _ o _ => o
  | _ => []

/-- One catalog entry: the metadata and argument schemas of a CyberChef
operation (`OperationDef` in `cyberchef_pydantic_models.py`; the raw JSON
fields `module`, `description`, `inputType`, `outputType`, `args`). -/
structure OperationDef where
  module : String
  description : String
  inputType : String
  outputType : String
  args : List ArgDef
deriving Repr, DecidableEq

/-- Source: `CYBERCHEF_OPERATIONS`: operation name → definition, in insertion order. -/
abbrev Catalog := List (String × OperationDef)

/-- Python `CYBERCHEF_OPERATIONS.get(op)`. -/
def catFind (cat : Catalog) (op : String) : Option OperationDef :=
  (cat.find? (fun p => decide (p.1 = op))).map (·.2)

/-- Characters of `s` before the first occurrence of `stop`
(Python `s.split(stop)[0]`). -/
def takeBefore (stop : Char) : List Char → List Char
  | [] => []
  | c :: cs => if c = stop then [] else c :: takeBefore stop cs

/-- One character of `_slug`'s comprehension:
`ch.lower() if ch.isalnum() else "-"` (ASCII model of Python's
Unicode-aware `isalnum`/`lower`). -/
def slugChar (c : Char) : Char :=
  if c.isAlphanum then c.toLower else '-'

/-- Python `.strip("-")` on a character list. -/
def stripDashes (l : List Char) : List Char :=
  ((l.dropWhile (· = '-')).reverse.dropWhile (· = '-')).reverse

/-- Source: `_slug` (`mcp_cyberchef_service.py:125`): drop a ":"-suffix, then a
"("-suffix, lowercase alphanumerics, map everything else to "-", strip edge
dashes. -/
def slug (s : String) : String :=
  String.mk (stripDashes ((takeBefore '(' (takeBefore ':' s.toList)).map slugChar))

/-- Source: `defaultdict(list)` bucket append: extend the bucket of key `s` with `v`,
creating the bucket at the end on first occurrence. -/
def bucketAdd (acc : List (String × List String)) (s : String) (v : String) :
    List (String × List String) :=
  if acc.any (fun p => decide (p.1 = s)) then
    acc.map (fun p => if p.1 = s then (p.1, p.2 ++ [v]) else p)
  else acc ++ [(s, [v])]

/-- The `buckets` loop of `_enum_table`: group labels by slug in
first-occurrence order. -/
def bucketize (ps : List (String × String)) : List (String × List String) :=
  ps.foldl (fun acc p => bucketAdd acc p.1 p.2) []

/-- Python dict assignment `d[k] = v`: overwrite in place or append. -/
def dictInsert (d : List (String × String)) (k v : String) :
    List (String × String) :=
  if d.any (fun p => decide (p.1 = k)) then
    d.map (fun p => if p.1 = k then (k, v) else p)
  else d ++ [(k, v)]

/-- The `out` dict of `_enum_table`: unique slugs map directly to their label;
colliding slugs are disambiguated as `slug-1`, `slug-2`, … in declaration
order. -/
def buildTable (opts : List String) : List (String × String) :=
  ((bucketize ((opts.map slug).zip opts)).flatMap (fun b =>
    if (opts.map slug).count b.1 = 1 then [(b.1, b.2.headD "")]
    else (List.zip (List.range' 1 b.2.length) b.2).map
      (fun q => (b.1 ++ "-" ++ toString q.1, q.2)))).foldl
    (fun d p => dictInsert d p.1 p.2) []

/-- The option labels `_enum_table` finds for `(op, arg_name)`: the first
argument of that name, if the operation exists. -/
def enumOptions (cat : Catalog) (op argName : String) : Option (List String) :=
  (catFind cat op).bind (fun d =>
    (d.args.find? (fun a => decide (a.name = argName))).map ArgDef.rawOptions)

/-- Source: `_enum_table` (`mcp_cyberchef_service.py:131`). -/
def enumTable (cat : Catalog) (op argName : String) : List (String × String) :=
  match enumOptions cat op argName with
  | some opts => buildTable opts
  | none => []

/-- Python `s.startswith(pre)`. -/
def pyStartsWith (s pre : String) : Bool :=
  pre.toList.isPrefixOf s.toList

/-- Source: `_normalize_enum` (`mcp_cyberchef_service.py:152`): non-strings pass
through; otherwise an exact slug-table hit wins, then the first table key
having the value's slug as a prefix, else the value is returned unchanged. -/
def normalizeEnum (cat : Catalog) (op argName : String) (val : Value) : Value :=
  match val with
  | .str s =>
    let tab := enumTable cat op argName
    let key := slug s
    match tab.find? (fun p => decide (p.1 = key)) with
    | some p => .str p.2
    | none =>
      match tab.find? (fun p => pyStartsWith p.1 key) with
      | some p => .str p.2
      | none => .str s
  | v => v

/-- Fueled first-occurrence deduplication (Python `set` membership collapse;
the fuel `l.length` always suffices). -/
def firstDedupF [DecidableEq α] : Nat → List α → List α
  | _, [] => []
  | 0, _ :: _ => []
  | fuel + 1, x :: rest => x :: firstDedupF fuel (rest.filter (fun y => decide (y ≠ x)))

/-- First-occurrence deduplication. -/
def firstDedup [DecidableEq α] (l : List α) : List α :=
  firstDedupF l.length l

/-- Stable insertion into a sorted list (before the first element `x` is
`le`-related to). -/
def insertSorted (le : α → α → Bool) (x : α) : List α → List α
  | [] => [x]
  | y :: ys => if le x y then x :: y :: ys else y :: insertSorted le x ys

/-- Stable insertion sort; models Python's stable `sort`/`sorted` for the
total preorders used here. -/
def isort (le : α → α → Bool) : List α → List α
  | [] => []
  | x :: xs => insertSorted le x (isort le xs)

/-- Code-point lexicographic comparison of character lists (structural, so
it evaluates in the kernel; proven equivalent to the library order below). -/
def strLeList : List Char → List Char → Bool
  | [], _ => true
  | _ :: _, [] => false
  | a :: as, b :: bs =>
    if a < b then true
    else if b < a then false
    else strLeList as bs

/-- Boolean string order (Python string comparison, by code point). -/
def strLe (a b : String) : Bool := strLeList a.toList b.toList

/-- The `unknown` set of `OperationDef.validate_args`, as reported:
`sorted(set(provided) - names)`. -/
def unknownKeys (args : List ArgDef) (provided : List (String × Value)) :
    List String :=
  isort strLe (firstDedup ((provided.map (·.1)).filter
    (fun k => !(args.any (fun a => decide (a.name = k))))))

/-- Structured counterparts of the `ValueError`s raised by
`OperationDef.validate_args`; each constructor carries the data the
corresponding f-string message embeds. -/
inductive ValErr where
  | unknownArgs (keys : List String)
  | missingRequired (argName : String)
  | invalidEnum (argName : String) (options : List String)
  | notNumber (argName : String)
  | belowMin (argName : String)
  | aboveMax (argName : String)
  | notString (argName : String)
  | notBoolean (argName : String)
  | bytesNoValue (argName : String)
  | invalidEncoding (argName : String) (encodings : List String)
  | encodingNotString (argName : String)
  | bytesValueBad (argName : String)
  | bytesShapeBad (argName : String)
deriving Repr, DecidableEq

/-- Python `d.get(k)` on an insertion-ordered dict. -/
def lookupField (fs : List (String × Value)) (k : String) : Option Value :=
  (fs.find? (fun p => decide (p.1 = k))).map (·.2)

/-- The per-type checks of `validate_args` on a supplied value. A Python
`bool` passes the `isinstance(v, (int, float))` number check (bool is a
subclass of int) and compares as 0/1. -/
def checkValue (a : ArgDef) (v : Value) : Except ValErr Unit :=
  match a with
  | .enum n options _ =>
    match v with
    | .str s => if options.contains s then .ok () else .error (.invalidEnum n options)
    | _ => .error (.invalidEnum n options)
  | .number n lo hi _ =>
    let num : Option Int :=
      match v with
      | .int m => some m
      | .bool b => some (if b then 1 else 0)
      | _ => none
    match num with
    | none => .error (.notNumber n)
    | some m =>
      if lo.elim false (fun b => decide (m < b)) then .error (.belowMin n)
      else if hi.elim false (fun b => decide (b < m)) then .error (.aboveMax n)
      else .ok ()
  | .string n _ =>
    match v with
    | .str _ => .ok ()
    | _ => .error (.notString n)
  | .boolean n _ =>
    match v with
    | .bool _ => .ok ()
    | _ => .error (.notBoolean n)
  | .bytes n encodings _ =>
    match v with
    | .obj fields =>
      match lookupField fields "value" with
      | none => .error (.bytesNoValue n)
      | some innerVal =>
        let encCheck : Except ValErr Unit :=
          match lookupField fields "encoding" with
          | none => .ok ()
          | some .null => .ok ()
          | some encv =>
            let encOk : Bool := match encv with
              | .str s => encodings.contains s
              | _ => false
            if !encodings.isEmpty && !encOk then .error (.invalidEncoding n encodings)
            else match encv with
              | .str _ => .ok ()
              | _ => .error (.encodingNotString n)
        match encCheck with
        | .error e => .error e
        | .ok _ =>
          match innerVal with
          | .str _ => .ok ()
          | _ => .error (.bytesValueBad n)
    | .str _ => .ok ()
    | _ => .error (.bytesShapeBad n)

/-- The per-argument loop of `validate_args`: required-ness, then type checks,
first failure aborts. -/
def validateArgsLoop (provided : List (String × Value)) :
    List ArgDef → Except ValErr Unit
  | [] => .ok ()
  | a :: rest =>
    match lookupField provided a.name with
    | none =>
      if a.isRequired then .error (.missingRequired a.name)
      else validateArgsLoop provided rest
    | some v =>
      match checkValue a v with
      | .error e => .error e
      | .ok _ => validateArgsLoop provided rest

/-- Source: `OperationDef.validate_args` (`cyberchef_pydantic_models.py:76`): all
unknown keys are reported together and sorted; then each declared argument is
checked in order. -/
def validateArgs (args : List ArgDef) (provided : List (String × Value)) :
    Except ValErr Unit :=
  if (unknownKeys args provided).isEmpty then validateArgsLoop provided args
  else .error (.unknownArgs (unknownKeys args provided))

/-- The `args` field of a raw recipe step dict, before pydantic parsing. -/
inductive ArgsField where
  | absent
  | dict (d : List (String × Value))
  | invalid
deriving Repr

/-- A raw recipe step as submitted to `bake_recipe`: the `"op"` key (absent or
a string) and the `"args"` key. -/
structure RawStep where
  op : Option String
  args : ArgsField

/-- A parsed `RecipeOp` (`tools.py:22`): `op: str`, `args: dict` defaulting to
`{}`. -/
structure RecipeOp where
  op : String
  args : List (String × Value)
deriving Repr

/-- Pydantic parsing of a raw step into `RecipeOp`; a missing `op` or
non-dict `args` raises `ValidationError`. -/
def parseRecipeOp (s : RawStep) : Except Unit RecipeOp :=
  match s.op, s.args with
  | some o, .dict d => .ok ⟨o, d⟩
  | some o, .absent => .ok ⟨o, []⟩
  | _, _ => .error ()

/-- Why a step failed inside `_validate_recipe`'s `try` block: pydantic
parse failure of `RecipeOp`, unknown operation, or argument validation
failure (all surface as `ValidationError` in the source). -/
inductive RecipeErr where
  | parseFailure
  | unknownOp (op : String)
  | argErr (e : ValErr)
deriving Repr, DecidableEq

/-- The body of `_validate_recipe`'s `try` for one step: parse `RecipeOp`,
normalize enum argument values, then validate against the catalog
(`CyberChefRecipeOperation`'s model validator: registry lookup plus
`validate_args`). -/
def validateStep (cat : Catalog) (step : RawStep) : Except RecipeErr RecipeOp :=
  match parseRecipeOp step with
  | .error _ => .error .parseFailure
  | .ok op0 =>
    let args1 := op0.args.map (fun p => (p.1, normalizeEnum cat op0.op p.1 p.2))
    match catFind cat op0.op with
    | none => .error (.unknownOp op0.op)
    | some d =>
      match validateArgs d.args args1 with
      | .error e => .error (.argErr e)
      | .ok _ => .ok ⟨op0.op, args1⟩

/-- Model of `rapidfuzz.process.extract(q, choices, limit=k)`: each choice
scored by the opaque scorer, stably sorted by score descending, first `k`
kept. Result triples are `(choice, score, index)`. -/
def processExtract (scorer : String → String → Nat) (q : String)
    (choices : List String) (k : Nat) : List (String × Nat × Nat) :=
  (isort (fun a b => decide (b.2.1 ≤ a.2.1))
    (choices.enum.map (fun p => (p.2, scorer q p.2, p.1)))).take k

/-- Structured counterpart of the per-step f-string error message of
the internal recipe validator: Step index invalid for the named op, the
expected arg keys, up to three similar op names, and the failure details.
Each record field is one interpolated piece of that message. -/
structure StepErr where
  index : Nat
  opName : Option String
  expectedArgs : List String
  similar : List String
  detail : RecipeErr

/-- Source: `[a.get("name") for a in CYBERCHEF_OPERATIONS.get(op_name, {}).get("args", [])]`. -/
def expectedArgNames (cat : Catalog) (opName : Option String) : List String :=
  match opName.bind (catFind cat) with
  | some d => d.args.map ArgDef.name
  | none => []

/-- Source: `[c[0] for c in process.extract(op_name, names, limit=3)] if op_name else []`. -/
def similarOps (scorer : String → String → Nat) (cat : Catalog)
    (opName : Option String) : List String :=
  match opName with
  | some s =>
    if s = "" then []
    else (processExtract scorer s (cat.map (·.1)) 3).map (·.1)
  | none => []

/-- The enumerated loop of `_validate_recipe`, from step index `i`. -/
def validateRecipeGo (cat : Catalog) (scorer : String → String → Nat) :
    Nat → List RawStep → List StepErr × List RecipeOp
  | _, [] => ([], [])
  | i, step :: rest =>
    match validateStep cat step with
    | .ok op =>
      ((validateRecipeGo cat scorer (i + 1) rest).1,
       op :: (validateRecipeGo cat scorer (i + 1) rest).2)
    | .error e =>
      ({ index := i, opName := step.op, expectedArgs := expectedArgNames cat step.op,
         similar := similarOps scorer cat step.op, detail := e }
          :: (validateRecipeGo cat scorer (i + 1) rest).1,
       (validateRecipeGo cat scorer (i + 1) rest).2)

/-- Source: `_validate_recipe` (`mcp_cyberchef_service.py:306`): returns
`(errors, validated, warnings)`; `warnings` is never appended to. -/
def validateRecipeAux (cat : Catalog) (scorer : String → String → Nat)
    (recipe : List RawStep) : List StepErr × List RecipeOp × List String :=
  ((validateRecipeGo cat scorer 0 recipe).1, (validateRecipeGo cat scorer 0 recipe).2, [])

mutual

/-- Approximation of Python `str(v)` for response values: scalars render as
Python does (`True`/`False`/`None`, decimal ints, strings verbatim);
containers render structurally (quoting of nested strings is not modelled —
no claim depends on it). -/
def pyStr : Value → String
  | .str s => s
  | .int n => toString n
  | .bool b => if b then "True" else "False"
  | .null => "None"
  | .list xs => "[" ++ pyStrSeq xs ++ "]"
  | .obj fs => "\x7b" ++ pyStrFields fs ++ "\x7d"

/-- Comma-joined elements for `pyStr` of a list. -/
def pyStrSeq : List Value → String
  | [] => ""
  | [x] => pyStr x
  | x :: y :: rest => pyStr x ++ ", " ++ pyStrSeq (y :: rest)

/-- Comma-joined `k: v` pairs for `pyStr` of a dict. -/
def pyStrFields : List (String × Value) → String
  | [] => ""
  | [p] => p.1 ++ ": " ++ pyStr p.2
  | p :: q :: rest => p.1 ++ ": " ++ pyStr p.2 ++ ", " ++ pyStrFields (q :: rest)

end

/-- Source: `bytes(v).decode("utf-8", "ignore")` for a `byteArray` response value,
modelled for ASCII byte lists (other shapes decode to chunks the model
drops, matching the source's broad `except: out = ""` fallback in spirit). -/
def decodeByteArray (v : Value) : String :=
  match v with
  | .list xs => String.mk (xs.filterMap (fun x =>
      match x with
      | .int n => if 0 ≤ n ∧ n < 128 then some (Char.ofNat n.toNat) else none
      | _ => none))
  | _ => ""

/-- Structured counterparts of the strings `bake_recipe` puts in `errors`. -/
inductive BakeErr where
  | emptyRecipe
  | step (e : StepErr)
  | upstream (msg : String)

/-- Source: `BakeRecipeResponse` (`tools.py:32`). -/
structure BakeRecipeResponse where
  ok : Bool
  output : Option String := none
  type : Option String := none
  errors : List BakeErr := []
  warnings : List String := []

/-- The response-shaping chain of `bake_recipe` after the upstream call
(`mcp_cyberchef_service.py:284-303`): `{type, value}` dicts, bare `{value}`
dicts, `{error}` dicts, then a catch-all stringification. -/
def processBakeResponse (resp : Value) (warns : List String) : BakeRecipeResponse :=
  match resp with
  | .obj fs =>
    match lookupField fs "type", lookupField fs "value" with
    | some t, some v =>
      match t with
      | .str s =>
        if s = "byteArray" then
          { ok := true, output := some (decodeByteArray v), type := some s, warnings := warns }
        else
          { ok := true, output := some (pyStr v), type := some s, warnings := warns }
      | _ => { ok := true, output := some (pyStr v), type := some (pyStr t), warnings := warns }
    | _, _ =>
      match lookupField fs "value" with
      | some v => { ok := true, output := some (pyStr v) }
      | none =>
        match lookupField fs "error" with
        | some e => { ok := false, errors := [.upstream (pyStr e)] }
        | none => { ok := true, output := some (pyStr resp) }
  | _ => { ok := true, output := some (pyStr resp) }

/-- Source: `bake_recipe` (`mcp_cyberchef_service.py:262`). The upstream `bake`
endpoint is the opaque parameter `upstream`; the second component records
whether `create_api_request` was invoked. -/
def bakeRecipe (cat : Catalog) (scorer : String → String → Nat)
    (upstream : String → List RecipeOp → Value) (input : String)
    (recipe : List RawStep) : BakeRecipeResponse × Bool :=
  if recipe.isEmpty then
    ({ ok := false, errors := [.emptyRecipe] }, false)
  else if (validateRecipeAux cat scorer recipe).1.isEmpty then
    (processBakeResponse (upstream input (validateRecipeAux cat scorer recipe).2.1)
      (validateRecipeAux cat scorer recipe).2.2, true)
  else
    ({ ok := false, errors := (validateRecipeAux cat scorer recipe).1.map .step,
       warnings := (validateRecipeAux cat scorer recipe).2.2 }, false)

/-- Source: `BatchBakeRecipeResponse` (`tools.py:60`). -/
structure BatchBakeRecipeResponse where
  results : List BakeRecipeResponse

/-- The iterable view of the batch upstream response
(`response_data or []`; non-list responses are modelled as empty
iteration). -/
def batchElems (resp : Value) : List Value :=
  match resp with
  | .list xs => xs
  | _ => []

/-- Source: `batch_bake_recipe` (`mcp_cyberchef_service.py:327`): same validation as
`bake_recipe` but no empty-recipe guard; iterates the upstream response list.
The second component records whether the upstream call was made. -/
def batchBakeRecipe (cat : Catalog) (scorer : String → String → Nat)
    (upstream : List String → List RecipeOp → Value) (inputs : List String)
    (recipe : List RawStep) : BatchBakeRecipeResponse × Bool :=
  if (validateRecipeAux cat scorer recipe).1.isEmpty then
    ({ results := (batchElems (upstream inputs (validateRecipeAux cat scorer recipe).2.1)).map
        (fun e => processBakeResponse e []) }, true)
  else
    ({ results := [{ ok := false, errors := (validateRecipeAux cat scorer recipe).1.map .step }] },
     false)

/-- A JSON document, for measuring `json.dumps(..., ensure_ascii=False)`
output byte lengths. -/
inductive JVal where
  | null
  | jbool (b : Bool)
  | jnum (n : Int)
  | jstr (s : String)
  | jarr (xs : List JVal)
  | jobj (fields : List (String × JVal))

/-- Hex digit for JSON control-character escapes. -/
def hexDigit (n : Nat) : Char :=
  if n < 10 then Char.ofNat (48 + n) else Char.ofNat (87 + n)

/-- Source: `json.dumps` escaping of one character (`ensure_ascii=False`): quote and
backslash are backslash-escaped, the short control escapes are two characters,
other control characters become `\u00XX`, everything else is emitted raw. -/
def jescapeChar (c : Char) : String :=
  if c = '"' then "\\\""
  else if c = '\\' then "\\\\"
  else if c = Char.ofNat 8 then "\\b"
  else if c = Char.ofNat 9 then "\\t"
  else if c = Char.ofNat 10 then "\\n"
  else if c = Char.ofNat 12 then "\\f"
  else if c = Char.ofNat 13 then "\\r"
  else if c.toNat < 32 then
    String.mk ['\\', 'u', '0', '0', hexDigit (c.toNat / 16), hexDigit (c.toNat % 16)]
  else String.mk [c]

/-- Concatenation of a list of strings (structural `"".join`). -/
def concatAll : List String → String
  | [] => ""
  | s :: rest => s ++ concatAll rest

/-- A JSON string literal as `json.dumps` emits it. -/
def jStrLit (s : String) : String :=
  "\"" ++ concatAll (s.toList.map jescapeChar) ++ "\""

mutual

/-- Source: `json.dumps(v, ensure_ascii=False)` with the default separators
`", "` and `": "`. -/
def jserialize : JVal → String
  | .null => "null"
  | .jbool b => if b then "true" else "false"
  | .jnum n => toString n
  | .jstr s => jStrLit s
  | .jarr xs => "[" ++ jserializeArr xs ++ "]"
  | .jobj fs => "\x7b" ++ jserializeObj fs ++ "\x7d"

/-- Array elements joined by `", "`. -/
def jserializeArr : List JVal → String
  | [] => ""
  | [x] => jserialize x
  | x :: y :: rest => jserialize x ++ ", " ++ jserializeArr (y :: rest)

/-- Object members `"key": value` joined by `", "`. -/
def jserializeObj : List (String × JVal) → String
  | [] => ""
  | [p] => jStrLit p.1 ++ ": " ++ jserialize p.2
  | p :: q :: rest => jStrLit p.1 ++ ": " ++ jserialize p.2 ++ ", " ++ jserializeObj (q :: rest)

end

/-- Source: `BYTE_CAP` (`mcp_cyberchef_service.py:24`). -/
def BYTE_CAP : Nat := 1024

/-- Source: `DEFAULT_LIMIT`. -/
def DEFAULT_LIMIT : Int := 10

/-- Source: `MAX_LIMIT`. -/
def MAX_LIMIT : Int := 20

/-- Source: `MAX_DESC_LEN`. -/
def MAX_DESC_LEN : Nat := 240

/-- Source: `CYBERCHEF_ALLOWED_CATEGORIES` (`mcp_cyberchef_service.py:84`). -/
def allowedCategories : List String :=
  ["Encodings", "Serialise", "Default", "PublicKey", "Hashing", "PGP", "Ciphers",
   "Shellcode", "Jq", "Handlebars", "Yara", "Regex", "Crypto",
   "Compression", "URL", "Code", "UserAgent", "Diff", "Protobuf"]

/-- The `limit` parameter of `search_operations`: an int, absent (`None`),
or the LibreChat-style `{"value": n}` dict. -/
inductive LimitParam where
  | none
  | int (n : Int)
  | dict (d : List (String × Int))

/-- Lines 206-212 of `search_operations`: `None` becomes 10; a dict is
unwrapped at key `"value"` with `KeyError` falling back to `DEFAULT_LIMIT`. -/
def resolveLimit : LimitParam → Int
  | .none => 10
  | .int n => n
  | .dict d =>
    match d.find? (fun p => decide (p.1 = "value")) with
    | some p => p.2
    | Option.none => DEFAULT_LIMIT

/-- Line 214: `limit = max(1, min(int(limit or DEFAULT_LIMIT), MAX_LIMIT))`
(`0` is falsy, so it falls back to the default before clamping). -/
def effLimit (lp : LimitParam) : Nat :=
  (max 1 (min (if resolveLimit lp = 0 then DEFAULT_LIMIT else resolveLimit lp)
    MAX_LIMIT)).toNat

/-- Python `str.strip()` (ASCII-whitespace model). -/
def pyStrip (s : String) : String :=
  String.mk (((s.toList.dropWhile Char.isWhitespace).reverse.dropWhile
    Char.isWhitespace).reverse)

/-- One entry of the `items` list built by `search_operations`. -/
structure Item where
  name : String
  summary : String
  category : Option String
  score : Nat
  inputType : Option String
  outputType : Option String
  args : Option (List ArgDef)
deriving Repr, DecidableEq

/-- Source: `"" or None` on a string field. -/
def optNone (s : String) : Option String :=
  if s = "" then none else some s

/-- The description truncation of lines 233-234: over 240 characters, keep
239 and append a horizontal ellipsis. -/
def truncDesc (d : String) : String :=
  let cs := d.toList
  if MAX_DESC_LEN < cs.length then String.mk (cs.take (MAX_DESC_LEN - 1)) ++ "…" else d

/-- The loop body of `search_operations` for one catalog index: category
filtering and item construction (lines 226-246). `scoreFn` models
`int(_score_op(q, name, desc))`. -/
def mkItem (scoreFn : String → String → String → Nat) (q : String) (inc : Bool)
    (name : String) (op : OperationDef) : Option Item :=
  let cat := pyStrip op.module
  if cat ≠ "" ∧ ¬ allowedCategories.contains cat then none
  else
    let desc := truncDesc (pyStrip op.description)
    some { name := name, summary := desc, category := optNone cat,
           score := scoreFn q name desc,
           inputType := optNone op.inputType, outputType := optNone op.outputType,
           args := if inc then some op.args else none }

/-- The `items` list over the candidate index set. -/
def mkItems (cat : Catalog) (scoreFn : String → String → String → Nat)
    (q : String) (inc : Bool) (idxs : List Nat) : List Item :=
  idxs.filterMap (fun i => (cat.get? i).bind (fun e => mkItem scoreFn q inc e.1 e.2))

/-- The sort key of line 248, `(-score, name)`, as a boolean total preorder:
score descending, then name ascending. -/
def itemLe (a b : Item) : Bool :=
  decide (b.score < a.score) || (decide (a.score = b.score) && strLe a.name b.name)

/-- JSON rendering of a raw argument schema (the `args` payload when
`include_args` is set; field order models the catalog's raw dicts). -/
def argDefJson (a : ArgDef) : JVal :=
  match a with
  | .enum n opts r =>
    .jobj [("type", .jstr "enum"), ("name", .jstr n),
           ("options", .jarr (opts.map .jstr)), ("required", .jbool r)]
  | .number n lo hi r =>
    .jobj ([("type", .jstr "number"), ("name", .jstr n)]
      ++ (match lo with | some b => [("min", .jnum b)] | Option.none => [])
      ++ (match hi with | some b => [("max", .jnum b)] | Option.none => [])
      ++ [("required", .jbool r)])
  | .string n r => .jobj [("type", .jstr "string"), ("name", .jstr n), ("required", .jbool r)]
  | .boolean n r => .jobj [("type", .jstr "boolean"), ("name", .jstr n), ("required", .jbool r)]
  | .bytes n encs r =>
    .jobj [("type", .jstr "bytes"), ("name", .jstr n),
           ("encodings", .jarr (encs.map .jstr)), ("required", .jbool r)]

/-- Optional string field to JSON. -/
def optJson (o : Option String) : JVal :=
  match o with
  | some s => .jstr s
  | none => .null

/-- One item dict in the insertion order of lines 236-245. -/
def itemJson (it : Item) : JVal :=
  .jobj ([("name", .jstr it.name), ("summary", .jstr it.summary),
          ("category", optJson it.category), ("score", .jnum (it.score : Int)),
          ("inputType", optJson it.inputType), ("outputType", optJson it.outputType)]
    ++ (match it.args with
        | some as => [("args", .jarr (as.map argDefJson))]
        | none => []))

/-- Byte length of `json.dumps({"total": len(items), "items": items},
ensure_ascii=False).encode("utf-8")`. -/
def previewSize (items : List Item) : Nat :=
  (jserialize (.jobj [("total", .jnum (items.length : Int)),
                      ("items", .jarr (items.map itemJson))])).utf8ByteSize

/-- Fueled form of the byte-cap `while` loop of line 255: drop the last item
while more than one remains and the serialization exceeds `BYTE_CAP`. -/
def capLoopF : Nat → List Item → List Item
  | 0, items => items
  | fuel + 1, items =>
    if 1 < items.length ∧ BYTE_CAP < previewSize items then capLoopF fuel items.dropLast
    else items

/-- The byte-cap loop (fuel `items.length` always suffices). -/
def capLoop (items : List Item) : List Item :=
  capLoopF items.length items

/-- Source: `SearchOpsOut` (`tools.py:16`); `truncated` is always set by the tool. -/
structure SearchOpsOut where
  total : Nat
  items : List Item
  truncated : Bool

/-- The candidate index set `idxs` of lines 216-223: name and description
fuzzy matches capped at `2×limit` each and merged as a set, or the first
`2×limit` catalog entries for an empty query. `wr` and `pt` are the opaque
`fuzz.WRatio` / `fuzz.partial_token_set_ratio` scorers. The Python set
iterates in unspecified order; the subsequent sort by the
injective-on-distinct-names key `(-score, name)` makes the final result
independent of it. -/
def searchIdxs (cat : Catalog) (wr pt : String → String → Nat)
    (q : String) (limit : Nat) : List Nat :=
  let names := cat.map (·.1)
  let descs := cat.map (fun e => e.2.description)
  let nameIdx := if q = "" then [] else (processExtract wr q names (limit * 2)).map (·.2.2)
  let descIdx := if q = "" then [] else (processExtract pt q descs (limit * 2)).map (·.2.2)
  if q = "" then List.range (min (limit * 2) names.length)
  else firstDedup (nameIdx ++ descIdx)

/-- The ranked, deduplicated, category-filtered and limit-cut item list. -/
def rankedItems (cat : Catalog) (wr pt : String → String → Nat)
    (scoreFn : String → String → String → Nat) (query : String)
    (lp : LimitParam) (inc : Bool) : List Item :=
  let limit := effLimit lp
  let q := pyStrip query
  (isort itemLe (mkItems cat scoreFn q inc (searchIdxs cat wr pt q limit))).take limit

/-- Source: `search_operations` (`mcp_cyberchef_service.py:192`): the ranked list,
then the byte-cap governor of lines 251-259. -/
def searchOperations (cat : Catalog) (wr pt : String → String → Nat)
    (scoreFn : String → String → String → Nat) (query : String)
    (lp : LimitParam) (inc : Bool) : SearchOpsOut :=
  if BYTE_CAP < previewSize (rankedItems cat wr pt scoreFn query lp inc) then
    { total := (capLoop (rankedItems cat wr pt scoreFn query lp inc)).length,
      items := capLoop (rankedItems cat wr pt scoreFn query lp inc), truncated := true }
  else
    { total := (rankedItems cat wr pt scoreFn query lp inc).length,
      items := rankedItems cat wr pt scoreFn query lp inc, truncated := false }

/-- Source: `SuggestionItem` (`tools.py:75`). -/
structure SuggestionItem where
  index : Nat
  op : String
  candidates : Option (List String)
  missingArgs : Option (List String)

/-- Structured counterpart of the Step-missing-op-name error string of
`validate_recipe`: the step index the message embeds. -/
structure MissingOpError where
  index : Nat

/-- Source: `ValidateRecipeOut` (`tools.py:86`). -/
structure ValidateRecipeOut where
  ok : Bool
  errors : List MissingOpError
  suggestions : List SuggestionItem
  normalized : List RecipeOp

/-- The enumerated loop of the advisory `validate_recipe` tool
(`mcp_cyberchef_service.py:448-465`), from step index `i`: blank names are
errors; unknown names get a top-5 candidate suggestion; known names get
advisory suggestions for unexpected keys (recorded with no payload, as in
the source) and for missing keys, and are always appended to `normalized`. -/
def validateRecipeToolGo (cat : Catalog) (scorer : String → String → Nat) :
    Nat → List RecipeOp → List MissingOpError × List SuggestionItem × List RecipeOp
  | _, [] => ([], [], [])
  | i, step :: rest =>
    if pyStrip step.op = "" then
      (⟨i⟩ :: (validateRecipeToolGo cat scorer (i + 1) rest).1,
       (validateRecipeToolGo cat scorer (i + 1) rest).2.1,
       (validateRecipeToolGo cat scorer (i + 1) rest).2.2)
    else
      match catFind cat (pyStrip step.op) with
      | none =>
        ((validateRecipeToolGo cat scorer (i + 1) rest).1,
         { index := i, op := pyStrip step.op,
           candidates := some ((processExtract scorer (pyStrip step.op)
             (cat.map (·.1)) 5).map (·.1)),
           missingArgs := none } :: (validateRecipeToolGo cat scorer (i + 1) rest).2.1,
         (validateRecipeToolGo cat scorer (i + 1) rest).2.2)
      | some d =>
        ((validateRecipeToolGo cat scorer (i + 1) rest).1,
         (if ((step.args.map (·.1)).filter
              (fun k => !((d.args.map ArgDef.name).contains k))).isEmpty then []
          else [{ index := i, op := pyStrip step.op, candidates := none,
                  missingArgs := none }])
          ++ (if ((d.args.map ArgDef.name).filter
              (fun k => !((step.args.map (·.1)).contains k))).isEmpty then []
          else [{ index := i, op := pyStrip step.op, candidates := none,
                  missingArgs := some ((d.args.map ArgDef.name).filter
                    (fun k => !((step.args.map (·.1)).contains k))) }])
          ++ (validateRecipeToolGo cat scorer (i + 1) rest).2.1,
         step :: (validateRecipeToolGo cat scorer (i + 1) rest).2.2)

/-- Source: `validate_recipe` (`mcp_cyberchef_service.py:441`): advisory dry-run;
`ok` iff no errors and no suggestions. -/
def validateRecipeTool (cat : Catalog) (scorer : String → String → Nat)
    (recipe : List RecipeOp) : ValidateRecipeOut :=
  { ok := (validateRecipeToolGo cat scorer 0 recipe).1.isEmpty
      && (validateRecipeToolGo cat scorer 0 recipe).2.1.isEmpty,
    errors := (validateRecipeToolGo cat scorer 0 recipe).1,
    suggestions := (validateRecipeToolGo cat scorer 0 recipe).2.1,
    normalized := (validateRecipeToolGo cat scorer 0 recipe).2.2 }

/-- The Python exception classes relevant to `create_api_request`:
`urllib.error.HTTPError` (imported at `mcp_cyberchef_service.py:8`) sits
under `URLError < OSError`, while the exceptions `requests` actually raises
(`requests.exceptions.HTTPError` from `raise_for_status`,
`requests.exceptions.ConnectionError` for transport failures) sit under
`RequestException < OSError` — a disjoint branch of the hierarchy. -/
inductive ExcClass where
  | baseException
  | exception
  | osError
  | urlError
  | urllibHTTPError
  | requestException
  | requestsHTTPError
  | connectionError
deriving Repr, DecidableEq

/-- Proper ancestors of each class, per the CPython / requests documented
hierarchies. -/
def ExcClass.ancestors : ExcClass → List ExcClass
  | .baseException => []
  | .exception => [.baseException]
  | .osError => [.exception, .baseException]
  | .urlError => [.osError, .exception, .baseException]
  | .urllibHTTPError => [.urlError, .osError, .exception, .baseException]
  | .requestException => [.osError, .exception, .baseException]
  | .requestsHTTPError => [.requestException, .osError, .exception, .baseException]
  | .connectionError => [.requestException, .osError, .exception, .baseException]

/-- Source: `isinstance`-style subclass test, deciding which `except` clause
catches a raised exception. -/
def ExcClass.isSubclassOf (c d : ExcClass) : Bool :=
  decide (c = d) || (ExcClass.ancestors c).contains d

/-- What one `requests.post(...)` + `response.raise_for_status()` round trip
does: a transport failure raises `ConnectionError`; a 4xx/5xx status raises
`requests.exceptions.HTTPError`; otherwise the JSON body is returned. -/
inductive TransportResult where
  | response (status : Nat) (body : Value)
  | connectFailure (msg : String)

/-- The error text `raise_for_status` attaches. -/
def httpStatusMsg (s : Nat) : String :=
  "HTTP status " ++ toString s

/-- The `{"error": ...}` dict the `except HTTPError` handler returns. -/
def errorBody (m : String) : Value :=
  .obj [("error", .str m)]

/-- The body of the `try` block: `requests.post` plus `raise_for_status()`
plus `.json()`. -/
def requestsAttempt (tr : TransportResult) : Except (ExcClass × String) Value :=
  match tr with
  | .connectFailure m => .error (.connectionError, m)
  | .response s b =>
    if 400 ≤ s then .error (.requestsHTTPError, httpStatusMsg s) else .ok b

/-- The `except HTTPError` clause: converts the raised exception to the
structured error dict only when its class is a subclass of the imported
`urllib.error.HTTPError`; any other exception propagates. -/
def handleRaised (e : ExcClass × String) : Except (ExcClass × String) Value :=
  if e.1.isSubclassOf .urllibHTTPError then .ok (errorBody e.2) else .error e

/-- Source: `create_api_request` (`mcp_cyberchef_service.py:97`): the `try` block
runs the request; `Except.error` means an exception escapes the function. -/
def createApiRequest (tr : TransportResult) : Except (ExcClass × String) Value :=
  match requestsAttempt tr with
  | .ok b => .ok b
  | .error e => handleRaised e

/-- A trivially constant stand-in for the opaque rapidfuzz scorers, used in
concrete evaluations. -/
def zeroScorer : String → String → Nat := fun _ _ => 0

/-- Constant stand-in for the blended `int(_score_op(...))` score. -/
def zeroScore3 : String → String → String → Nat := fun _ _ _ => 0

/-- A stand-in upstream `bake` endpoint for concrete evaluations. -/
def demoUpstream : String → List RecipeOp → Value := fun _ _ => .null

/-- A stand-in upstream `batch/bake` endpoint for concrete evaluations. -/
def demoUpstreamBatch : List String → List RecipeOp → Value := fun _ _ => .list []

/-- Modelled from the spec: the repository's static catalog file
(`utils/js/operations.json`, loaded by `load_operations`) is not among the
sources under `src/`; §1/§2 of the spec describe it as a large catalog of
operations whose categories lie in the discovery allow-list. This stand-in
supplies ten small operations in the allowed category `Code`, enough to
exercise the empty-query search path on concrete inputs. -/
def demoCat : Catalog :=
  (List.range 10).map (fun i =>
    ("op" ++ toString i,
     { module := "Code", description := "", inputType := "", outputType := "", args := [] }))

/-- An operation name of 1100 characters. -/
def bigName : String := String.mk (List.replicate 1100 'a')

/-- A one-operation catalog whose single item serializes far beyond
`BYTE_CAP`. -/
def bigCat : Catalog :=
  [(bigName,
    { module := "Code", description := "", inputType := "", outputType := "", args := [] })]

/-- The search item `bigCat` produces. -/
def bigItem : Item :=
  { name := bigName, summary := "", category := some "Code", score := 0,
    inputType := none, outputType := none, args := none }

/-- A catalog with one operation carrying two enum labels whose slugs
collide (`"A B"` and `"A-B"` both slugify to `"a-b"`). -/
def collideCat : Catalog :=
  [("Op", { module := "Default", description := "", inputType := "", outputType := "",
            args := [.enum "Fmt" ["A B", "A-B"] false] })]

/-- A catalog with one operation carrying collision-free enum labels. -/
def uniqueEnumCat : Catalog :=
  [("Op", { module := "Default", description := "", inputType := "", outputType := "",
            args := [.enum "Fmt" ["UTF-8", "Hex"] false] })]

/-- A one-operation catalog for recipe-validation evaluations. -/
def demoValCat : Catalog :=
  [("From Base64",
    { module := "Default", description := "", inputType := "string", outputType := "byteArray",
      args := [.enum "Alphabet" ["A-Za-z0-9+/=", "URL safe"] false] })]

/-- The first item the `demoCat` empty-query search returns. -/
def demoItem : Item :=
  { name := "op0", summary := "", category := some "Code", score := 0,
    inputType := none, outputType := none, args := none }

/-- A recipe step naming a misspelled operation. -/
def badStep : RawStep :=
  { op := some "Frm Base64", args := .dict [] }

/-! Helper lemmas about the list machinery of the embedding. -/

theorem charlist_cons_lt_cons_iff (a b : Char) (as bs : List Char) :
    (a :: as) < (b :: bs) ↔ a < b ∨ (a = b ∧ as < bs) := by
  constructor
  · intro h
    have hlt := (List.lt_iff_lex_lt (a :: as) (b :: bs)).mpr h
    cases hlt with
    | head _ _ hab => exact Or.inl hab
    | tail hab hba htl =>
      exact Or.inr ⟨le_antisymm (le_of_not_lt hba) (le_of_not_lt hab),
        (List.lt_iff_lex_lt as bs).mp htl⟩
  · intro h
    rcases h with h | ⟨rfl, h⟩
    · exact List.Lex.rel h
    · exact List.Lex.cons h

theorem strLeList_iff : ∀ as bs : List Char, strLeList as bs = true ↔ as ≤ bs
  | [], bs => by simp [strLeList, List.nil_le]
  | a :: as, [] => by
    simp only [strLeList, Bool.false_eq_true, false_iff]
    intro h
    rcases lt_or_eq_of_le h with h | h
    · exact (List.Lex.not_nil_right _ _) h
    · exact List.noConfusion h
  | a :: as, b :: bs => by
    by_cases hab : a < b
    · simp only [strLeList, if_pos hab, true_iff]
      exact le_of_lt (List.Lex.rel hab)
    · by_cases hba : b < a
      · simp only [strLeList, if_neg hab, if_pos hba, Bool.false_eq_true, false_iff]
        intro h
        rcases lt_or_eq_of_le h with h | h
        · rcases (charlist_cons_lt_cons_iff a b as bs).mp h with h' | ⟨heq, _⟩
          · exact hab h'
          · exact lt_irrefl a (heq ▸ hba)
        · cases h
          exact lt_irrefl a hba
      · have heq : a = b := le_antisymm (le_of_not_lt hba) (le_of_not_lt hab)
        subst heq
        simp only [strLeList, if_neg hab, if_neg hba]
        rw [strLeList_iff as bs]
        constructor
        · exact fun h => List.cons_le_cons a h
        · intro h
          rcases lt_or_eq_of_le h with h | h
          · rcases (charlist_cons_lt_cons_iff a a as bs).mp h with h' | ⟨_, h'⟩
            · exact absurd h' (lt_irrefl a)
            · exact le_of_lt h'
          · cases h
            exact le_rfl

theorem strLe_iff (a b : String) : strLe a b = true ↔ a ≤ b := by
  rw [String.le_iff_toList_le]
  exact strLeList_iff a.toList b.toList

theorem insertSorted_perm (le : α → α → Bool) (x : α) :
    ∀ l : List α, (insertSorted le x l).Perm (x :: l)
  | [] => List.Perm.refl _
  | y :: ys => by
    unfold insertSorted
    split
    · exact List.Perm.refl _
    · exact ((insertSorted_perm le x ys).cons y).trans (List.Perm.swap x y ys)

theorem isort_perm (le : α → α → Bool) : ∀ l : List α, (isort le l).Perm l
  | [] => List.Perm.refl _
  | x :: xs => by
    unfold isort
    exact (insertSorted_perm le x (isort le xs)).trans ((isort_perm le xs).cons x)

theorem mem_insertSorted (le : α → α → Bool) (x : α) (l : List α) (z : α) :
    z ∈ insertSorted le x l ↔ z = x ∨ z ∈ l := by
  rw [(insertSorted_perm le x l).mem_iff, List.mem_cons]

theorem pairwise_insertSorted (le : α → α → Bool)
    (htrans : ∀ a b c, le a b = true → le b c = true → le a c = true)
    (htot : ∀ a b, le a b = true ∨ le b a = true) (x : α) :
    ∀ l : List α, l.Pairwise (fun a b => le a b = true) →
      (insertSorted le x l).Pairwise (fun a b => le a b = true)
  | [], _ => List.Pairwise.cons (by simp) List.Pairwise.nil
  | y :: ys, h => by
    rcases List.pairwise_cons.mp h with ⟨hy, hys⟩
    unfold insertSorted
    split
    · rename_i hxy
      refine List.pairwise_cons.mpr ⟨?_, h⟩
      intro z hz
      rcases List.mem_cons.mp hz with rfl | hz
      · exact hxy
      · exact htrans x y z hxy (hy z hz)
    · rename_i hxy
      have hyx : le y x = true := by
        rcases htot x y with h1 | h1
        · exact absurd h1 hxy
        · exact h1
      refine List.pairwise_cons.mpr ⟨?_, pairwise_insertSorted le htrans htot x ys hys⟩
      intro z hz
      rcases (mem_insertSorted le x ys z).mp hz with rfl | hz
      · exact hyx
      · exact hy z hz

theorem pairwise_isort (le : α → α → Bool)
    (htrans : ∀ a b c, le a b = true → le b c = true → le a c = true)
    (htot : ∀ a b, le a b = true ∨ le b a = true) :
    ∀ l : List α, (isort le l).Pairwise (fun a b => le a b = true)
  | [] => List.Pairwise.nil
  | x :: xs => by
    unfold isort
    exact pairwise_insertSorted le htrans htot x (isort le xs)
      (pairwise_isort le htrans htot xs)

theorem mem_firstDedupF [DecidableEq α] :
    ∀ (fuel : Nat) (l : List α), ∀ x ∈ firstDedupF fuel l, x ∈ l
  | _, [] => by simp [firstDedupF]
  | 0, _ :: _ => by simp [firstDedupF]
  | fuel + 1, y :: rest => by
    intro x hx
    unfold firstDedupF at hx
    rcases List.mem_cons.mp hx with rfl | hx
    · exact List.mem_cons_self _ _
    · exact List.mem_cons_of_mem _ (List.mem_filter.mp
        (mem_firstDedupF fuel _ x hx)).1

theorem mem_firstDedupF_of_fuel [DecidableEq α] :
    ∀ (fuel : Nat) (l : List α), l.length ≤ fuel → ∀ x ∈ l, x ∈ firstDedupF fuel l
  | _, [], _ => by simp
  | 0, y :: rest, h => by simp at h
  | fuel + 1, y :: rest, h => by
    intro x hx
    unfold firstDedupF
    rcases List.mem_cons.mp hx with rfl | hx
    · exact List.mem_cons_self _ _
    · by_cases hxy : x = y
      · subst hxy; exact List.mem_cons_self _ _
      · refine List.mem_cons_of_mem _ ?_
        refine mem_firstDedupF_of_fuel fuel _ ?_ x ?_
        · exact le_trans (List.length_filter_le _ _) (Nat.le_of_succ_le_succ h)
        · simp [List.mem_filter, hx, hxy]

theorem mem_firstDedup [DecidableEq α] (l : List α) (x : α) :
    x ∈ firstDedup l ↔ x ∈ l :=
  ⟨mem_firstDedupF l.length l x, mem_firstDedupF_of_fuel l.length l le_rfl x⟩

theorem nodup_firstDedupF [DecidableEq α] :
    ∀ (fuel : Nat) (l : List α), (firstDedupF fuel l).Nodup
  | _, [] => by simp [firstDedupF]
  | 0, _ :: _ => by simp [firstDedupF]
  | fuel + 1, y :: rest => by
    unfold firstDedupF
    refine List.nodup_cons.mpr ⟨?_, nodup_firstDedupF fuel _⟩
    intro hy
    have := (List.mem_filter.mp (mem_firstDedupF fuel _ y hy)).2
    simp at this

theorem nodup_firstDedup [DecidableEq α] (l : List α) : (firstDedup l).Nodup :=
  nodup_firstDedupF l.length l

theorem capLoopF_prefixOf : ∀ (fuel : Nat) (items : List Item),
    capLoopF fuel items <+: items
  | 0, items => List.prefix_rfl
  | fuel + 1, items => by
    unfold capLoopF
    split
    · exact (capLoopF_prefixOf fuel items.dropLast).trans
        (items.dropLast_eq_take ▸ List.take_prefix _ _)
    · exact List.prefix_rfl

theorem capLoopF_post : ∀ (fuel : Nat) (items : List Item),
    items.length ≤ fuel + 1 →
    (capLoopF fuel items).length ≤ 1 ∨ previewSize (capLoopF fuel items) ≤ BYTE_CAP
  | 0, items, h => by
    unfold capLoopF
    by_cases h1 : items.length ≤ 1
    · exact Or.inl h1
    · exact Or.inr (by omega)
  | fuel + 1, items, h => by
    unfold capLoopF
    split
    · rename_i hcond
      refine capLoopF_post fuel items.dropLast ?_
      have := items.length_dropLast
      omega
    · rename_i hcond
      rw [not_and_or] at hcond
      rcases hcond with h1 | h2
      · exact Or.inl (by omega)
      · exact Or.inr (by omega)

theorem capLoop_prefixOf (items : List Item) : capLoop items <+: items :=
  capLoopF_prefixOf items.length items

theorem capLoop_post (items : List Item) :
    (capLoop items).length ≤ 1 ∨ previewSize (capLoop items) ≤ BYTE_CAP :=
  capLoopF_post items.length items (Nat.le_succ _)

theorem itemLe_total (a b : Item) : itemLe a b = true ∨ itemLe b a = true := by
  unfold itemLe
  rcases Nat.lt_trichotomy a.score b.score with h | h | h
  · right; simp [h]
  · rcases le_total a.name b.name with hn | hn
    · left; simp [h, (strLe_iff _ _).mpr hn]
    · right; simp [h.symm, (strLe_iff _ _).mpr hn]
  · left; simp [h]

theorem itemLe_trans (a b c : Item) (h1 : itemLe a b = true) (h2 : itemLe b c = true) :
    itemLe a c = true := by
  unfold itemLe at *
  simp only [Bool.or_eq_true, Bool.and_eq_true, decide_eq_true_eq] at *
  rcases h1 with h1 | ⟨h1s, h1n⟩
  · rcases h2 with h2 | ⟨h2s, h2n⟩
    · exact Or.inl (h2.trans h1)
    · exact Or.inl (h2s ▸ h1)
  · rcases h2 with h2 | ⟨h2s, h2n⟩
    · exact Or.inl (h1s ▸ h2)
    · exact Or.inr ⟨h1s.trans h2s,
        (strLe_iff _ _).mpr (le_trans ((strLe_iff _ _).mp h1n) ((strLe_iff _ _).mp h2n))⟩

theorem names_inj (cat : Catalog) (hcat : (cat.map (·.1)).Nodup)
    {i j : Nat} {e e' : String × OperationDef}
    (hi : cat.get? i = some e) (hj : cat.get? j = some e') (hee : e.1 = e'.1) :
    i = j := by
  have h1 : (cat.map (·.1)).get? i = some e.1 := by
    rw [List.get?_map, hi]; rfl
  have h2 : (cat.map (·.1)).get? j = some e.1 := by
    rw [List.get?_map, hj, hee]; rfl
  have hlen : i < (cat.map (·.1)).length := (List.get?_eq_some.mp h1).1
  exact List.get?_inj hlen hcat (h1.trans h2.symm)

theorem mkItem_name (sf : String → String → String → Nat) (q : String) (inc : Bool)
    (n : String) (op : OperationDef) (it : Item)
    (h : mkItem sf q inc n op = some it) : it.name = n := by
  unfold mkItem at h
  by_cases hc : pyStrip op.module ≠ "" ∧ ¬ allowedCategories.contains (pyStrip op.module) = true
  · rw [if_pos hc] at h
    exact absurd h (by simp)
  · rw [if_neg hc] at h
    have h2 := Option.some.inj h
    rw [← h2]

theorem mem_mkItems (cat : Catalog) (sf : String → String → String → Nat)
    (q : String) (inc : Bool) (idxs : List Nat) (it : Item)
    (h : it ∈ mkItems cat sf q inc idxs) :
    ∃ i ∈ idxs, ∃ e, cat.get? i = some e ∧ it.name = e.1 := by
  rcases List.mem_filterMap.mp h with ⟨i, hi, hval⟩
  cases hget : cat.get? i with
  | none => rw [hget] at hval; simp at hval
  | some e =>
    rw [hget] at hval
    simp only [Option.some_bind] at hval
    exact ⟨i, hi, e, hget, mkItem_name sf q inc e.1 e.2 it hval⟩

theorem nodup_mkItems_names (cat : Catalog) (sf : String → String → String → Nat)
    (q : String) (inc : Bool) (hcat : (cat.map (·.1)).Nodup) :
    ∀ idxs : List Nat, idxs.Nodup → ((mkItems cat sf q inc idxs).map (·.name)).Nodup
  | [], _ => by simp [mkItems]
  | i :: rest, hnd => by
    rcases List.nodup_cons.mp hnd with ⟨hi, hrest⟩
    have ih := nodup_mkItems_names cat sf q inc hcat rest hrest
    unfold mkItems
    rw [List.filterMap_cons]
    cases hget : (cat.get? i).bind (fun e => mkItem sf q inc e.1 e.2) with
    | none => exact ih
    | some it =>
      simp only [List.map_cons]
      refine List.nodup_cons.mpr ⟨?_, ih⟩
      intro hmem
      rcases List.mem_map.mp hmem with ⟨it2, hit2, hname⟩
      rcases mem_mkItems cat sf q inc rest it2 hit2 with ⟨j, hj, e2, hget2, hn2⟩
      cases hgi : cat.get? i with
      | none => rw [hgi] at hget; simp at hget
      | some e =>
        rw [hgi] at hget
        simp only [Option.some_bind] at hget
        have hni : it.name = e.1 := mkItem_name sf q inc e.1 e.2 it hget
        have : i = j := names_inj cat hcat hgi hget2 (by rw [← hni, ← hname, hn2])
        exact hi (this ▸ hj)

theorem searchIdxs_nodup (cat : Catalog) (wr pt : String → String → Nat)
    (q : String) (limit : Nat) : (searchIdxs cat wr pt q limit).Nodup := by
  unfold searchIdxs
  split
  · exact List.nodup_range _
  · exact nodup_firstDedup _

theorem rankedItems_length (cat : Catalog) (wr pt : String → String → Nat)
    (sf : String → String → String → Nat) (query : String) (lp : LimitParam)
    (inc : Bool) : (rankedItems cat wr pt sf query lp inc).length ≤ effLimit lp := by
  unfold rankedItems
  simp only [List.length_take]
  exact min_le_left _ _

theorem searchOperations_cases (cat : Catalog) (wr pt : String → String → Nat)
    (sf : String → String → String → Nat) (query : String) (lp : LimitParam)
    (inc : Bool) :
    (BYTE_CAP < previewSize (rankedItems cat wr pt sf query lp inc) ∧
      (searchOperations cat wr pt sf query lp inc).items
        = capLoop (rankedItems cat wr pt sf query lp inc) ∧
      (searchOperations cat wr pt sf query lp inc).truncated = true) ∨
    (previewSize (rankedItems cat wr pt sf query lp inc) ≤ BYTE_CAP ∧
      (searchOperations cat wr pt sf query lp inc).items
        = rankedItems cat wr pt sf query lp inc ∧
      (searchOperations cat wr pt sf query lp inc).truncated = false) := by
  unfold searchOperations
  split
  · rename_i h; exact Or.inl ⟨h, rfl, rfl⟩
  · rename_i h; exact Or.inr ⟨by omega, rfl, rfl⟩

theorem searchOperations_items_prefixOf (cat : Catalog) (wr pt : String → String → Nat)
    (sf : String → String → String → Nat) (query : String) (lp : LimitParam)
    (inc : Bool) :
    (searchOperations cat wr pt sf query lp inc).items
      <+: rankedItems cat wr pt sf query lp inc := by
  rcases searchOperations_cases cat wr pt sf query lp inc with ⟨_, h, _⟩ | ⟨_, h, _⟩
  · rw [h]; exact capLoop_prefixOf _
  · rw [h]

theorem search_items_length_le (cat : Catalog) (wr pt : String → String → Nat)
    (sf : String → String → String → Nat) (query : String) (lp : LimitParam)
    (inc : Bool) :
    (searchOperations cat wr pt sf query lp inc).items.length ≤ effLimit lp :=
  le_trans (searchOperations_items_prefixOf cat wr pt sf query lp inc).length_le
    (rankedItems_length cat wr pt sf query lp inc)

theorem utf8Size_go_append : ∀ a b : List Char,
    String.utf8ByteSize.go (a ++ b) = String.utf8ByteSize.go a + String.utf8ByteSize.go b
  | [], b => by simp [String.utf8ByteSize.go]
  | c :: cs, b => by
    simp only [List.cons_append, String.utf8ByteSize.go]
    rw [show cs.append b = cs ++ b from rfl, utf8Size_go_append cs b]
    omega

theorem utf8ByteSize_append (a b : String) :
    (a ++ b).utf8ByteSize = a.utf8ByteSize + b.utf8ByteSize := by
  cases a with
  | mk la =>
    cases b with
    | mk lb =>
      show String.utf8ByteSize.go (la ++ lb) = _
      rw [utf8Size_go_append]
      rfl

theorem size_le_append_right (a b : String) : b.utf8ByteSize ≤ (a ++ b).utf8ByteSize := by
  rw [utf8ByteSize_append]; omega

theorem size_le_append_left (a b : String) : a.utf8ByteSize ≤ (a ++ b).utf8ByteSize := by
  rw [utf8ByteSize_append]; omega

theorem jescapeChar_size_pos (c : Char) : 1 ≤ (jescapeChar c).utf8ByteSize := by
  unfold jescapeChar
  split
  · decide
  split
  · decide
  split
  · decide
  split
  · decide
  split
  · decide
  split
  · decide
  split
  · decide
  split
  · show 1 ≤ String.utf8ByteSize.go ['\\', 'u', '0', '0', hexDigit (c.toNat / 16), hexDigit (c.toNat % 16)]
    simp only [String.utf8ByteSize.go]
    have h1 : Char.utf8Size '\\' = 1 := rfl
    have h2 : Char.utf8Size 'u' = 1 := rfl
    omega
  · show 1 ≤ String.utf8ByteSize.go [c]
    simp only [String.utf8ByteSize.go]
    have := Char.utf8Size_pos c
    omega

theorem le_size_of_part_right {n : Nat} {b : String} (h : n ≤ b.utf8ByteSize)
    (a : String) : n ≤ (a ++ b).utf8ByteSize :=
  le_trans h (size_le_append_right a b)

theorem le_size_of_part_left {n : Nat} {a : String} (h : n ≤ a.utf8ByteSize)
    (b : String) : n ≤ (a ++ b).utf8ByteSize :=
  le_trans h (size_le_append_left a b)

theorem concat_escape_ge : ∀ l : List Char,
    l.length ≤ (concatAll (l.map jescapeChar)).utf8ByteSize
  | [] => by simp [concatAll]
  | c :: cs => by
    simp only [List.map_cons, concatAll, List.length_cons]
    rw [utf8ByteSize_append]
    have h1 := jescapeChar_size_pos c
    have h2 := concat_escape_ge cs
    omega

theorem jStrLit_size_ge (s : String) : s.toList.length ≤ (jStrLit s).utf8ByteSize := by
  unfold jStrLit
  exact le_size_of_part_left (le_size_of_part_right (concat_escape_ge s.toList) _) _

theorem jstr_size_ge (s : String) :
    s.toList.length ≤ (jserialize (.jstr s)).utf8ByteSize :=
  jStrLit_size_ge s

theorem jobj_size_ge (fs : List (String × JVal)) :
    (jserializeObj fs).utf8ByteSize ≤ (jserialize (.jobj fs)).utf8ByteSize := by
  rw [show jserialize (.jobj fs) = "\x7b" ++ jserializeObj fs ++ "\x7d" from rfl]
  exact le_size_of_part_left (le_size_of_part_right le_rfl _) _

theorem jserializeObj_cons_drop (p q : String × JVal) (rest : List (String × JVal)) :
    (jserializeObj (q :: rest)).utf8ByteSize ≤ (jserializeObj (p :: q :: rest)).utf8ByteSize := by
  rw [show jserializeObj (p :: q :: rest)
      = jStrLit p.1 ++ ": " ++ jserialize p.2 ++ ", " ++ jserializeObj (q :: rest) from rfl]
  exact le_size_of_part_right le_rfl _

theorem jserializeObj_cons_head (p q : String × JVal) (rest : List (String × JVal)) :
    (jserialize p.2).utf8ByteSize ≤ (jserializeObj (p :: q :: rest)).utf8ByteSize := by
  rw [show jserializeObj (p :: q :: rest)
      = jStrLit p.1 ++ ": " ++ jserialize p.2 ++ ", " ++ jserializeObj (q :: rest) from rfl]
  exact le_size_of_part_left (le_size_of_part_left (le_size_of_part_right le_rfl _) _) _

theorem jserializeObj_single_ge (p : String × JVal) :
    (jserialize p.2).utf8ByteSize ≤ (jserializeObj [p]).utf8ByteSize := by
  rw [show jserializeObj [p] = jStrLit p.1 ++ ": " ++ jserialize p.2 from rfl]
  exact le_size_of_part_right le_rfl _

theorem jarr_single_ge (x : JVal) :
    (jserialize x).utf8ByteSize ≤ (jserialize (.jarr [x])).utf8ByteSize := by
  rw [show jserialize (.jarr [x]) = "[" ++ jserializeArr [x] ++ "]" from rfl,
    show jserializeArr [x] = jserialize x from rfl]
  exact le_size_of_part_left (le_size_of_part_right le_rfl _) _

/-- A single search item always serializes to at least as many bytes as its
operation name has characters. -/
theorem previewSize_single_ge_name (it : Item) :
    it.name.toList.length ≤ previewSize [it] := by
  show it.name.toList.length ≤
    (jserialize (.jobj [("total", .jnum ([it].length : Int)),
      ("items", .jarr ([it].map itemJson))])).utf8ByteSize
  refine le_trans ?_ (jobj_size_ge _)
  refine le_trans ?_ (jserializeObj_cons_drop _ _ _)
  refine le_trans ?_ (jserializeObj_single_ge _)
  show it.name.toList.length ≤ (jserialize (.jarr ([it].map itemJson))).utf8ByteSize
  simp only [List.map_cons, List.map_nil]
  refine le_trans ?_ (jarr_single_ge _)
  have hitem : itemJson it
      = .jobj (("name", .jstr it.name) :: ("summary", .jstr it.summary)
          :: ([("category", optJson it.category), ("score", .jnum (it.score : Int)),
              ("inputType", optJson it.inputType), ("outputType", optJson it.outputType)]
            ++ (match it.args with
                | some as => [("args", .jarr (as.map argDefJson))]
                | none => []))) := by
    unfold itemJson
    simp [List.cons_append]
  rw [hitem]
  refine le_trans ?_ (jobj_size_ge _)
  refine le_trans ?_ (jserializeObj_cons_head _ _ _)
  exact jstr_size_ge it.name

/-- Source: `bigCat` search: the ranked list is the single oversized item. -/
theorem rankedItems_bigCat :
    rankedItems bigCat zeroScorer zeroScorer zeroScore3 "" (.int 5) false = [bigItem] := rfl

theorem bigItem_oversized :
    BYTE_CAP < previewSize [bigItem] := by
  have h := previewSize_single_ge_name bigItem
  have hlen : bigItem.name.toList.length = 1100 := by
    show (String.mk (List.replicate 1100 'a')).toList.length = 1100
    show (List.replicate 1100 'a').length = 1100
    exact List.length_replicate 1100 'a'
  rw [hlen] at h
  unfold BYTE_CAP
  omega

theorem itemLe_eq_true_iff (a b : Item) :
    itemLe a b = true ↔ (b.score < a.score ∨ (a.score = b.score ∧ a.name ≤ b.name)) := by
  unfold itemLe
  simp [strLe_iff, Bool.or_eq_true, Bool.and_eq_true, decide_eq_true_eq]

theorem mem_search_items (cat : Catalog) (wr pt : String → String → Nat)
    (sf : String → String → String → Nat) (query : String) (lp : LimitParam)
    (inc : Bool) (it : Item) (h : it ∈ (searchOperations cat wr pt sf query lp inc).items) :
    ∃ i ∈ searchIdxs cat wr pt (pyStrip query) (effLimit lp),
      ∃ e, cat.get? i = some e ∧ it.name = e.1 := by
  have hranked : rankedItems cat wr pt sf query lp inc
      = (isort itemLe (mkItems cat sf (pyStrip query) inc
          (searchIdxs cat wr pt (pyStrip query) (effLimit lp)))).take (effLimit lp) := rfl
  have h1 : it ∈ rankedItems cat wr pt sf query lp inc :=
    (searchOperations_items_prefixOf cat wr pt sf query lp inc).sublist.subset h
  rw [hranked] at h1
  have h2 := (List.take_sublist _ _).subset h1
  have h3 := (isort_perm itemLe _).mem_iff.mp h2
  exact mem_mkItems cat sf (pyStrip query) inc _ it h3

/-- Claim C5 (amended): for a search response whose untruncated ranked-list
serialization exceeds `BYTE_CAP`, the returned items are a prefix of the
ranked list (no reordering, no gaps) and `truncated=true`, and the returned
serialization is within the cap **unless a single item remains** (the loop of
line 255 never drops the last item, so one oversized item is returned above
the cap); a response already within the cap never sets `truncated=true`. -/
theorem search_truncation_invariant (cat : Catalog) (wr pt : String → String → Nat)
    (sf : String → String → String → Nat) (query : String) (lp : LimitParam) (inc : Bool) :
    (BYTE_CAP < previewSize (rankedItems cat wr pt sf query lp inc) →
      (searchOperations cat wr pt sf query lp inc).items
          <+: rankedItems cat wr pt sf query lp inc ∧
        (searchOperations cat wr pt sf query lp inc).truncated = true ∧
        (previewSize (searchOperations cat wr pt sf query lp inc).items ≤ BYTE_CAP ∨
          (searchOperations cat wr pt sf query lp inc).items.length ≤ 1)) ∧
    (previewSize (rankedItems cat wr pt sf query lp inc) ≤ BYTE_CAP →
      (searchOperations cat wr pt sf query lp inc).truncated = false ∧
        (searchOperations cat wr pt sf query lp inc).items
          = rankedItems cat wr pt sf query lp inc) := by
  rcases searchOperations_cases cat wr pt sf query lp inc with ⟨hgt, hi, ht⟩ | ⟨hle, hi, ht⟩
  · constructor
    · intro _
      refine ⟨hi ▸ capLoop_prefixOf _, ht, ?_⟩
      rw [hi]
      rcases capLoop_post (rankedItems cat wr pt sf query lp inc) with h | h
      · exact Or.inr h
      · exact Or.inl h
    · intro h2
      omega
  · constructor
    · intro h2
      omega
    · intro _
      exact ⟨ht, hi⟩

/-- Claim C5 counterexample: with a catalog whose only operation has an
1100-character name, the untruncated serialization exceeds the cap yet the
returned response — a single item the loop cannot drop — still exceeds the
cap, contradicting "the returned response is under the cap". -/
theorem search_truncation_counterexample :
    BYTE_CAP < previewSize (rankedItems bigCat zeroScorer zeroScorer zeroScore3 "" (.int 5) false) ∧
    (searchOperations bigCat zeroScorer zeroScorer zeroScore3 "" (.int 5) false).truncated = true ∧
    BYTE_CAP < previewSize
      (searchOperations bigCat zeroScorer zeroScorer zeroScore3 "" (.int 5) false).items := by
  have hbig : BYTE_CAP < previewSize
      (rankedItems bigCat zeroScorer zeroScorer zeroScore3 "" (.int 5) false) := by
    rw [rankedItems_bigCat]
    exact bigItem_oversized
  rcases searchOperations_cases bigCat zeroScorer zeroScorer zeroScore3 "" (.int 5) false with
    ⟨_, hi, ht⟩ | ⟨hle, _, _⟩
  · have hcap : capLoop (rankedItems bigCat zeroScorer zeroScorer zeroScore3 "" (.int 5) false)
        = rankedItems bigCat zeroScorer zeroScorer zeroScore3 "" (.int 5) false := by
      rw [rankedItems_bigCat]
      exact rfl
    refine ⟨hbig, ht, ?_⟩
    rw [hi, hcap]
    exact hbig
  · omega

/-- Claim C5 witness: the amended truncation facts hold at the concrete
oversized catalog. -/
theorem search_truncation_witness :
    (searchOperations bigCat zeroScorer zeroScorer zeroScore3 "" (.int 5) false).items
        <+: rankedItems bigCat zeroScorer zeroScorer zeroScore3 "" (.int 5) false ∧
      (searchOperations bigCat zeroScorer zeroScorer zeroScore3 "" (.int 5) false).truncated = true ∧
      (previewSize (searchOperations bigCat zeroScorer zeroScorer zeroScore3 "" (.int 5) false).items
          ≤ BYTE_CAP ∨
        (searchOperations bigCat zeroScorer zeroScorer zeroScore3 "" (.int 5) false).items.length ≤ 1) :=
  (search_truncation_invariant bigCat zeroScorer zeroScorer zeroScore3 "" (.int 5) false).1
    (rankedItems_bigCat ▸ bigItem_oversized)

/-- Claim C6: for every query and limit, the returned item list is sorted by
score descending with ties broken by name ascending, has no duplicate
operation names (given the catalog's keys are distinct, as in a Python dict),
and has at most the effective limit's entries. -/
theorem search_sorted_nodup_limited (cat : Catalog) (wr pt : String → String → Nat)
    (sf : String → String → String → Nat) (query : String) (lp : LimitParam) (inc : Bool)
    (hcat : (cat.map (·.1)).Nodup) :
    (searchOperations cat wr pt sf query lp inc).items.Pairwise
        (fun a b => b.score < a.score ∨ (a.score = b.score ∧ a.name ≤ b.name)) ∧
      ((searchOperations cat wr pt sf query lp inc).items.map (·.name)).Nodup ∧
      (searchOperations cat wr pt sf query lp inc).items.length ≤ effLimit lp := by
  have hranked : rankedItems cat wr pt sf query lp inc
      = (isort itemLe (mkItems cat sf (pyStrip query) inc
          (searchIdxs cat wr pt (pyStrip query) (effLimit lp)))).take (effLimit lp) := rfl
  refine ⟨?_, ?_, search_items_length_le cat wr pt sf query lp inc⟩
  · have hsorted := pairwise_isort itemLe itemLe_trans itemLe_total
      (mkItems cat sf (pyStrip query) inc (searchIdxs cat wr pt (pyStrip query) (effLimit lp)))
    have h2 : (rankedItems cat wr pt sf query lp inc).Pairwise
        (fun a b => itemLe a b = true) := by
      rw [hranked]
      exact List.Pairwise.sublist (List.take_sublist _ _) hsorted
    have h3 := List.Pairwise.sublist
      (searchOperations_items_prefixOf cat wr pt sf query lp inc).sublist h2
    exact h3.imp (fun hab => (itemLe_eq_true_iff _ _).mp hab)
  · have h0 := nodup_mkItems_names cat sf (pyStrip query) inc hcat
      (searchIdxs cat wr pt (pyStrip query) (effLimit lp))
      (searchIdxs_nodup cat wr pt (pyStrip query) (effLimit lp))
    have h1 : ((isort itemLe (mkItems cat sf (pyStrip query) inc
        (searchIdxs cat wr pt (pyStrip query) (effLimit lp)))).map (·.name)).Nodup :=
      ((isort_perm itemLe _).map (·.name)).symm.nodup h0
    have h2 : ((rankedItems cat wr pt sf query lp inc).map (·.name)).Nodup := by
      rw [hranked]
      exact List.Nodup.sublist ((List.take_sublist _ _).map _) h1
    exact List.Nodup.sublist
      ((searchOperations_items_prefixOf cat wr pt sf query lp inc).sublist.map _) h2

/-- Claim C6 witness: the properties hold at a concrete catalog and query. -/
theorem search_sorted_nodup_limited_witness :
    ((searchOperations demoCat zeroScorer zeroScorer zeroScore3 "" (.int 5) false).items.map
        (·.name)).Nodup ∧
      (searchOperations demoCat zeroScorer zeroScorer zeroScore3 "" (.int 5) false).items.length
        ≤ effLimit (.int 5) :=
  ⟨(search_sorted_nodup_limited demoCat zeroScorer zeroScorer zeroScore3 "" (.int 5) false
      (by decide)).2.1,
   (search_sorted_nodup_limited demoCat zeroScorer zeroScorer zeroScore3 "" (.int 5) false
      (by decide)).2.2⟩

/-- Claim C7: an empty-query search never fails and draws every returned item
from the first `2×limit` catalog entries in iteration order (the model is a
pure function, so repeated calls with unchanged catalog are identical by
construction); on the spec-modelled stand-in catalog,
`search_operations("", limit=5)` returns exactly 5 items, untruncated. -/
theorem search_empty_query :
    (∀ (cat : Catalog) (wr pt : String → String → Nat)
      (sf : String → String → String → Nat) (lp : LimitParam) (inc : Bool) (it : Item),
      it ∈ (searchOperations cat wr pt sf "" lp inc).items →
        ∃ j, j < min (effLimit lp * 2) cat.length ∧
          ∃ e, cat.get? j = some e ∧ it.name = e.1) ∧
    (searchOperations demoCat zeroScorer zeroScorer zeroScore3 "" (.int 5) false).items.length
        = 5 ∧
    (searchOperations demoCat zeroScorer zeroScorer zeroScore3 "" (.int 5) false).truncated
        = false := by
  refine ⟨?_, by decide, by decide⟩
  intro cat wr pt sf lp inc it h
  rcases mem_search_items cat wr pt sf "" lp inc it h with ⟨i, hi, e, hget, hname⟩
  have hidx : searchIdxs cat wr pt (pyStrip "") (effLimit lp)
      = List.range (min (effLimit lp * 2) (cat.map (·.1)).length) := rfl
  rw [hidx, List.mem_range, List.length_map] at hi
  exact ⟨i, hi, e, hget, hname⟩

/-- Claim C7 witness: the first returned item of the concrete empty-query
search indeed stems from the first `2×limit` catalog entries. -/
theorem search_empty_query_witness :
    ∃ j, j < min (effLimit (.int 5) * 2) demoCat.length ∧
      ∃ e, demoCat.get? j = some e ∧ demoItem.name = e.1 :=
  search_empty_query.1 demoCat zeroScorer zeroScorer zeroScore3 (.int 5) false demoItem
    (by decide)

/-- Claim C10: every `limit` value — absent, out-of-range ints, or the
LibreChat `{"value": n}` dict — is resolved without failing: the effective
limit always lies in `1..20`, absent limits and dicts without `"value"`
default to 10, a `{"value": n}` dict behaves like the int `n`, and the
returned item list never exceeds 20 entries. -/
theorem limit_sanitized :
    (∀ lp : LimitParam, 1 ≤ effLimit lp ∧ effLimit lp ≤ 20) ∧
    effLimit .none = 10 ∧
    (∀ d : List (String × Int), d.find? (fun p => decide (p.1 = "value")) = Option.none →
      effLimit (.dict d) = 10) ∧
    (∀ n : Int, effLimit (.dict [("value", n)]) = effLimit (.int n)) ∧
    (∀ (cat : Catalog) (wr pt : String → String → Nat)
      (sf : String → String → String → Nat) (query : String) (lp : LimitParam) (inc : Bool),
      (searchOperations cat wr pt sf query lp inc).items.length ≤ 20) := by
  have hb : ∀ lp : LimitParam, 1 ≤ effLimit lp ∧ effLimit lp ≤ 20 := by
    intro lp
    unfold effLimit
    generalize resolveLimit lp = l
    by_cases h0 : l = 0
    · rw [if_pos h0]
      decide
    · rw [if_neg h0]
      have h1 : (1 : Int) ≤ max 1 (min l MAX_LIMIT) := le_max_left _ _
      have h2 : max 1 (min l MAX_LIMIT) ≤ 20 := by
        have h3 : min l MAX_LIMIT ≤ 20 := le_trans (min_le_right _ _) (by decide)
        exact max_le (by decide) h3
      omega
  refine ⟨hb, by decide, ?_, fun n => rfl, ?_⟩
  · intro d hd
    simp only [effLimit, resolveLimit, hd]
    decide
  · intro cat wr pt sf query lp inc
    exact le_trans (search_items_length_le cat wr pt sf query lp inc) (hb lp).2

/-- Claim C10 witness: concrete limit values resolve as claimed. -/
theorem limit_sanitized_witness :
    effLimit (.dict [("other", 3)]) = 10 ∧
      1 ≤ effLimit (.int (-5)) ∧ effLimit (.int (-5)) ≤ 20 :=
  ⟨limit_sanitized.2.2.1 [("other", 3)] rfl,
   (limit_sanitized.1 (.int (-5))).1, (limit_sanitized.1 (.int (-5))).2⟩

theorem similarOps_length_le (scorer : String → String → Nat) (cat : Catalog)
    (opName : Option String) : (similarOps scorer cat opName).length ≤ 3 := by
  cases opName with
  | none => simp [similarOps]
  | some s =>
    by_cases hs : s = ""
    · simp [similarOps, hs]
    · simp only [similarOps, if_neg hs, List.length_map]
      unfold processExtract
      rw [List.length_take]
      exact min_le_left _ _

theorem validateRecipeGo_ok_eq (cat : Catalog) (scorer : String → String → Nat)
    (i : Nat) (step : RawStep) (rest : List RawStep) (op : RecipeOp)
    (hv : validateStep cat step = .ok op) :
    validateRecipeGo cat scorer i (step :: rest)
      = ((validateRecipeGo cat scorer (i + 1) rest).1,
         op :: (validateRecipeGo cat scorer (i + 1) rest).2) := by
  conv_lhs => rw [show validateRecipeGo cat scorer i (step :: rest)
    = (match validateStep cat step with
       | .ok op =>
         ((validateRecipeGo cat scorer (i + 1) rest).1,
          op :: (validateRecipeGo cat scorer (i + 1) rest).2)
       | .error e =>
         ({ index := i, opName := step.op, expectedArgs := expectedArgNames cat step.op,
            similar := similarOps scorer cat step.op, detail := e }
             :: (validateRecipeGo cat scorer (i + 1) rest).1,
          (validateRecipeGo cat scorer (i + 1) rest).2)) from rfl]
  rw [hv]

theorem validateRecipeGo_err_eq (cat : Catalog) (scorer : String → String → Nat)
    (i : Nat) (step : RawStep) (rest : List RawStep) (err : RecipeErr)
    (hv : validateStep cat step = .error err) :
    validateRecipeGo cat scorer i (step :: rest)
      = ({ index := i, opName := step.op, expectedArgs := expectedArgNames cat step.op,
           similar := similarOps scorer cat step.op, detail := err }
            :: (validateRecipeGo cat scorer (i + 1) rest).1,
         (validateRecipeGo cat scorer (i + 1) rest).2) := by
  conv_lhs => rw [show validateRecipeGo cat scorer i (step :: rest)
    = (match validateStep cat step with
       | .ok op =>
         ((validateRecipeGo cat scorer (i + 1) rest).1,
          op :: (validateRecipeGo cat scorer (i + 1) rest).2)
       | .error e =>
         ({ index := i, opName := step.op, expectedArgs := expectedArgNames cat step.op,
            similar := similarOps scorer cat step.op, detail := e }
             :: (validateRecipeGo cat scorer (i + 1) rest).1,
          (validateRecipeGo cat scorer (i + 1) rest).2)) from rfl]
  rw [hv]

theorem validateRecipeGo_errors_ne (cat : Catalog) (scorer : String → String → Nat) :
    ∀ (i : Nat) (steps : List RawStep),
      (∃ step ∈ steps, ∃ err, validateStep cat step = .error err) →
      (validateRecipeGo cat scorer i steps).1 ≠ []
  | _, [], h => by
    rcases h with ⟨st, hmem, _⟩
    exact absurd hmem (List.not_mem_nil st)
  | i, step :: rest, h => by
    cases hv : validateStep cat step with
    | ok op =>
      rw [validateRecipeGo_ok_eq cat scorer i step rest op hv]
      rcases h with ⟨st, hmem, err, herr⟩
      rcases List.mem_cons.mp hmem with rfl | hmem2
      · rw [hv] at herr
        exact Except.noConfusion herr
      · exact validateRecipeGo_errors_ne cat scorer (i + 1) rest ⟨st, hmem2, err, herr⟩
    | error err =>
      rw [validateRecipeGo_err_eq cat scorer i step rest err hv]
      exact List.cons_ne_nil _ _

theorem validateRecipeGo_errors_fields (cat : Catalog) (scorer : String → String → Nat) :
    ∀ (i : Nat) (steps : List RawStep), ∀ e ∈ (validateRecipeGo cat scorer i steps).1,
      e.expectedArgs = expectedArgNames cat e.opName ∧ e.similar.length ≤ 3
  | i, [] => by
    intro e he
    rw [show validateRecipeGo cat scorer i [] = ([], []) from rfl] at he
    exact absurd he (List.not_mem_nil e)
  | i, step :: rest => by
    intro e he
    cases hv : validateStep cat step with
    | ok op =>
      rw [validateRecipeGo_ok_eq cat scorer i step rest op hv] at he
      exact validateRecipeGo_errors_fields cat scorer (i + 1) rest e he
    | error err =>
      rw [validateRecipeGo_err_eq cat scorer i step rest err hv] at he
      rcases List.mem_cons.mp he with rfl | he2
      · exact ⟨rfl, similarOps_length_le scorer cat step.op⟩
      · exact validateRecipeGo_errors_fields cat scorer (i + 1) rest e he2

/-- Claim C1: a recipe with at least one step failing validation is rejected
whole: `bake_recipe` returns `ok=false`, never invokes the execution boundary
(second component `false`), reports the accumulated per-step errors, and each
per-step error embeds the full expected-argument-name list for its operation
(empty when the operation does not exist) plus at most 3 fuzzy-suggested
alternative operation names. -/
theorem bake_recipe_all_or_nothing (cat : Catalog) (scorer : String → String → Nat)
    (upstream : String → List RecipeOp → Value) (input : String) (recipe : List RawStep)
    (h : ∃ step ∈ recipe, ∃ err, validateStep cat step = .error err) :
    bakeRecipe cat scorer upstream input recipe
      = ({ ok := false, output := none, type := none,
           errors := (validateRecipeAux cat scorer recipe).1.map BakeErr.step,
           warnings := (validateRecipeAux cat scorer recipe).2.2 }, false) ∧
    (validateRecipeAux cat scorer recipe).1 ≠ [] ∧
    (∀ e ∈ (validateRecipeAux cat scorer recipe).1,
      e.expectedArgs = expectedArgNames cat e.opName ∧ e.similar.length ≤ 3) := by
  have hne : (validateRecipeGo cat scorer 0 recipe).1 ≠ [] :=
    validateRecipeGo_errors_ne cat scorer 0 recipe h
  have hrecF : recipe.isEmpty = false := by
    cases recipe with
    | nil =>
      rcases h with ⟨st, hmem, _⟩
      exact absurd hmem (List.not_mem_nil st)
    | cons a l => rfl
  have hneF : (validateRecipeAux cat scorer recipe).1.isEmpty = false :=
    List.isEmpty_eq_false.mpr hne
  refine ⟨?_, hne, fun e he => validateRecipeGo_errors_fields cat scorer 0 recipe e he⟩
  unfold bakeRecipe
  rw [hrecF, hneF]
  simp

/-- Claim C1 witness: a one-step recipe naming a misspelled operation is
rejected without the upstream call. -/
theorem bake_recipe_all_or_nothing_witness :
    (bakeRecipe demoValCat zeroScorer demoUpstream "x" [badStep]).2 = false ∧
    (bakeRecipe demoValCat zeroScorer demoUpstream "x" [badStep]).1.ok = false := by
  have h := bake_recipe_all_or_nothing demoValCat zeroScorer demoUpstream "x" [badStep]
    ⟨badStep, List.mem_singleton.mpr rfl, RecipeErr.unknownOp "Frm Base64", rfl⟩
  rw [h.1]
  exact ⟨rfl, rfl⟩

theorem mem_unknownKeys (args : List ArgDef) (provided : List (String × Value)) (s : String) :
    s ∈ unknownKeys args provided ↔
      s ∈ provided.map (·.1) ∧ ∀ a ∈ args, a.name ≠ s := by
  unfold unknownKeys
  rw [(isort_perm strLe _).mem_iff, mem_firstDedup, List.mem_filter]
  simp [List.any_eq_false]

/-- Claim C2: when the provided mapping has at least one key not declared by
the schema, `validate_args` fails with an unknown-arguments error whose key
list is sorted and contains exactly the undeclared provided keys. -/
theorem validate_args_unknown_keys (args : List ArgDef) (provided : List (String × Value))
    (k : String) (hk : k ∈ provided.map (·.1)) (hn : ∀ a ∈ args, a.name ≠ k) :
    validateArgs args provided = .error (.unknownArgs (unknownKeys args provided)) ∧
    (unknownKeys args provided).Pairwise (· ≤ ·) ∧
    (∀ s : String, s ∈ unknownKeys args provided ↔
      (s ∈ provided.map (·.1) ∧ ∀ a ∈ args, a.name ≠ s)) := by
  have hkmem : k ∈ unknownKeys args provided := (mem_unknownKeys args provided k).mpr ⟨hk, hn⟩
  have hne : (unknownKeys args provided).isEmpty = false :=
    List.isEmpty_eq_false.mpr (List.ne_nil_of_mem hkmem)
  refine ⟨?_, ?_, fun s => mem_unknownKeys args provided s⟩
  · unfold validateArgs
    rw [hne]
    simp
  · have hp := pairwise_isort strLe
      (fun a b c h1 h2 => (strLe_iff a c).mpr
        (le_trans ((strLe_iff a b).mp h1) ((strLe_iff b c).mp h2)))
      (fun a b => by
        rcases le_total a b with h | h
        · exact Or.inl ((strLe_iff a b).mpr h)
        · exact Or.inr ((strLe_iff b a).mpr h))
      (firstDedup ((provided.map (·.1)).filter
        (fun k => !(args.any (fun a => decide (a.name = k))))))
    exact hp.imp (fun hab => (strLe_iff _ _).mp hab)

/-- Claim C2 witness: a misspelled argument key is rejected as an
unknown-arguments error. -/
theorem validate_args_unknown_keys_witness :
    validateArgs [ArgDef.string "Delimiter" false] [("Delim", Value.str "x")]
      = .error (.unknownArgs (unknownKeys [ArgDef.string "Delimiter" false]
          [("Delim", Value.str "x")])) :=
  (validate_args_unknown_keys [ArgDef.string "Delimiter" false] [("Delim", Value.str "x")]
    "Delim" (by decide) (by decide)).1

theorem map_slug_zip (opts : List String) :
    (opts.map slug).zip opts = opts.map (fun o => (slug o, o)) := by
  induction opts with
  | nil => rfl
  | cons o os ih => simp only [List.map_cons, List.zip_cons_cons, ih]

theorem bucketAdd_fresh (acc : List (String × List String)) (s v : String)
    (h : ∀ p ∈ acc, p.1 ≠ s) : bucketAdd acc s v = acc ++ [(s, [v])] := by
  unfold bucketAdd
  rw [if_neg]
  intro hc
  rcases List.any_eq_true.mp hc with ⟨p, hp, hps⟩
  exact h p hp (by simpa using hps)

theorem foldl_bucketAdd_fresh :
    ∀ (ps : List (String × String)) (acc : List (String × List String)),
      (∀ q ∈ ps, ∀ b ∈ acc, b.1 ≠ q.1) → (ps.map (·.1)).Nodup →
      ps.foldl (fun acc p => bucketAdd acc p.1 p.2) acc
        = acc ++ ps.map (fun p => (p.1, [p.2]))
  | [], acc, _, _ => by simp
  | p :: rest, acc, hfresh, hnd => by
    simp only [List.foldl_cons, List.map_cons]
    rw [bucketAdd_fresh acc p.1 p.2 (fun b hb => hfresh p (List.mem_cons_self _ _) b hb)]
    rw [foldl_bucketAdd_fresh rest (acc ++ [(p.1, [p.2])]) ?_ (by
      simpa using (List.nodup_cons.mp (by simpa using hnd)).2)]
    · simp
    · intro q hq b hb
      rcases List.mem_append.mp hb with hb | hb
      · exact hfresh q (List.mem_cons_of_mem _ hq) b hb
      · have hbp : b = (p.1, [p.2]) := List.mem_singleton.mp hb
        subst hbp
        intro heq
        have hq1 : q.1 ∈ rest.map (·.1) := List.mem_map_of_mem _ hq
        rw [← heq] at hq1
        exact (List.nodup_cons.mp (by simpa using hnd)).1 hq1

theorem dictInsert_fresh (d : List (String × String)) (k v : String)
    (h : ∀ p ∈ d, p.1 ≠ k) : dictInsert d k v = d ++ [(k, v)] := by
  unfold dictInsert
  rw [if_neg]
  intro hc
  rcases List.any_eq_true.mp hc with ⟨p, hp, hps⟩
  exact h p hp (by simpa using hps)

theorem foldl_dictInsert_fresh :
    ∀ (ps : List (String × String)) (d : List (String × String)),
      (∀ q ∈ ps, ∀ b ∈ d, b.1 ≠ q.1) → (ps.map (·.1)).Nodup →
      ps.foldl (fun d p => dictInsert d p.1 p.2) d = d ++ ps
  | [], d, _, _ => by simp
  | p :: rest, d, hfresh, hnd => by
    simp only [List.foldl_cons]
    rw [dictInsert_fresh d p.1 p.2 (fun b hb => hfresh p (List.mem_cons_self _ _) b hb)]
    rw [foldl_dictInsert_fresh rest (d ++ [p]) ?_ (by
      simpa using (List.nodup_cons.mp (by simpa using hnd)).2)]
    · simp
    · intro q hq b hb
      rcases List.mem_append.mp hb with hb | hb
      · exact hfresh q (List.mem_cons_of_mem _ hq) b hb
      · have hbp : b = p := List.mem_singleton.mp hb
        subst hbp
        intro heq
        have hq1 : q.1 ∈ rest.map (·.1) := List.mem_map_of_mem _ hq
        rw [← heq] at hq1
        exact (List.nodup_cons.mp (by simpa using hnd)).1 hq1

theorem flatMap_eq_map_of_single {α : Type} {β : Type} (f : α → List β) (g : α → β) :
    ∀ l : List α, (∀ x ∈ l, f x = [g x]) → l.flatMap f = l.map g
  | [], _ => rfl
  | x :: xs, h => by
    simp only [List.flatMap_cons, List.map_cons]
    rw [h x (List.mem_cons_self _ _),
      flatMap_eq_map_of_single f g xs (fun y hy => h y (List.mem_cons_of_mem _ hy))]
    rfl

theorem buildTable_of_nodup (opts : List String) (h : (opts.map slug).Nodup) :
    buildTable opts = opts.map (fun o => (slug o, o)) := by
  unfold buildTable bucketize
  rw [map_slug_zip]
  rw [foldl_bucketAdd_fresh (opts.map (fun o => (slug o, o))) [] (by simp) (by
    simpa [List.map_map, Function.comp] using h)]
  rw [List.nil_append, List.map_map]
  rw [List.flatMap_map]
  rw [flatMap_eq_map_of_single _ (fun o => (slug o, o)) opts (by
    intro o ho
    have hcount : (opts.map slug).count (slug o) = 1 :=
      List.count_eq_one_of_mem h (List.mem_map_of_mem slug ho)
    simp [Function.comp, hcount])]
  rw [foldl_dictInsert_fresh (opts.map (fun o => (slug o, o))) [] (by simp) (by
    simpa [List.map_map, Function.comp] using h)]
  rw [List.nil_append]

theorem table_find_of_nodup :
    ∀ (opts : List String) (L : String), (opts.map slug).Nodup → L ∈ opts →
      (opts.map (fun o => (slug o, o))).find? (fun p => decide (p.1 = slug L))
        = some (slug L, L)
  | [], L, _, hL => absurd hL (List.not_mem_nil L)
  | o :: os, L, hnd, hL => by
    rw [List.map_cons] at hnd
    have hnd2 := List.nodup_cons.mp hnd
    simp only [List.map_cons]
    by_cases heq : slug o = slug L
    · rw [List.find?_cons_of_pos _ (by simpa using heq)]
      have hLo : L = o := by
        rcases List.mem_cons.mp hL with h | hmem
        · exact h
        · exfalso
          have hmem2 : slug L ∈ os.map slug := List.mem_map_of_mem slug hmem
          rw [← heq] at hmem2
          exact hnd2.1 hmem2
      rw [hLo, heq]
    · rw [List.find?_cons_of_neg _ (by simpa using heq)]
      have hmem : L ∈ os := by
        rcases List.mem_cons.mp hL with h | hmem
        · exact absurd (h ▸ rfl) heq
        · exact hmem
      exact table_find_of_nodup os L hnd2.2 hmem

/-- Claim C3 (amended): for an enum argument whose declared option labels
have pairwise-distinct slugs, normalizing a declared label is a no-op, and
more generally normalizing any string with the same slug as a declared label
resolves to that label. (With colliding slugs the disambiguated table keys
`slug-1`, `slug-2`, … no longer contain the bare slug, so normalizing a
colliding label itself can return a *different* label of the same bucket —
see the counterexample.) -/
theorem enum_normalize_resolves (cat : Catalog) (op argName : String)
    (opts : List String) (L v : String)
    (hfind : enumOptions cat op argName = some opts)
    (hnd : (opts.map slug).Nodup) (hL : L ∈ opts) (hv : slug v = slug L) :
    normalizeEnum cat op argName (.str v) = .str L := by
  have htab : enumTable cat op argName = opts.map (fun o => (slug o, o)) := by
    unfold enumTable
    rw [hfind]
    show buildTable opts = _
    exact buildTable_of_nodup opts hnd
  simp only [normalizeEnum]
  rw [htab, hv, table_find_of_nodup opts L hnd hL]

/-- Claim C3 counterexample: the labels `"A B"` and `"A-B"` both slugify to
`"a-b"`; normalizing the declared label `"A-B"` itself returns `"A B"`, so
normalization of a declared option label is *not* a no-op in general. -/
theorem enum_normalize_counterexample :
    "A-B" ∈ ["A B", "A-B"] ∧
    enumOptions collideCat "Op" "Fmt" = some ["A B", "A-B"] ∧
    normalizeEnum collideCat "Op" "Fmt" (.str "A-B") = .str "A B" ∧
    ("A B" : String) ≠ "A-B" :=
  ⟨by decide, rfl, rfl, by decide⟩

/-- Claim C3 witness: in a collision-free option list, the slug variant
`"utf-8"` of the declared label `"UTF-8"` resolves to that label, and the
label itself is a fixed point. -/
theorem enum_normalize_resolves_witness :
    normalizeEnum uniqueEnumCat "Op" "Fmt" (.str "utf-8") = .str "UTF-8" ∧
    normalizeEnum uniqueEnumCat "Op" "Fmt" (.str "UTF-8") = .str "UTF-8" :=
  ⟨enum_normalize_resolves uniqueEnumCat "Op" "Fmt" ["UTF-8", "Hex"] "UTF-8" "utf-8"
      rfl (by decide) (by decide) rfl,
   enum_normalize_resolves uniqueEnumCat "Op" "Fmt" ["UTF-8", "Hex"] "UTF-8" "UTF-8"
      rfl (by decide) (by decide) rfl⟩

/-- Claim C4 (amended): `bake_recipe` rejects a zero-step recipe with
`ok=false`, one error, and no upstream call; `batch_bake_recipe` performs no
zero-step check — an empty recipe passes its validation and the upstream
`batch/bake` call is made. -/
theorem empty_recipe_handling (cat : Catalog) (scorer : String → String → Nat)
    (up : String → List RecipeOp → Value) (bup : List String → List RecipeOp → Value)
    (input : String) (inputs : List String) :
    (bakeRecipe cat scorer up input []).1.ok = false ∧
    (bakeRecipe cat scorer up input []).1.errors.length = 1 ∧
    (bakeRecipe cat scorer up input []).2 = false ∧
    (batchBakeRecipe cat scorer bup inputs []).2 = true :=
  ⟨rfl, rfl, rfl, rfl⟩

/-- Claim C4 counterexample: on a zero-step recipe, `batch_bake_recipe`
*does* make the upstream execution call, refuting "each recipe-executing
tool … never makes the upstream execution call". -/
theorem batch_empty_recipe_counterexample :
    (batchBakeRecipe [] zeroScorer demoUpstreamBatch [] []).2 = true := rfl

/-- Claim C8 (code bug): the `except HTTPError` clause of
`create_api_request` imports `HTTPError` from `urllib.error`, but
`requests.raise_for_status()` raises `requests.exceptions.HTTPError` and
transport failures raise `requests.exceptions.ConnectionError` — neither is
a subclass of `urllib.error.HTTPError`, so both escape the function instead
of being converted to the structured `{"error": ...}` response. -/
theorem create_api_request_propagates :
    (∀ (s : Nat) (body : Value), 400 ≤ s →
      createApiRequest (.response s body) = .error (.requestsHTTPError, httpStatusMsg s)) ∧
    (∀ m : String, createApiRequest (.connectFailure m) = .error (.connectionError, m)) ∧
    ExcClass.isSubclassOf .requestsHTTPError .urllibHTTPError = false := by
  refine ⟨?_, ?_, by decide⟩
  · intro s body h
    show (match (if 400 ≤ s then Except.error (ExcClass.requestsHTTPError, httpStatusMsg s)
        else Except.ok body : Except (ExcClass × String) Value) with
      | .ok b => .ok b
      | .error e => handleRaised e)
      = Except.error (ExcClass.requestsHTTPError, httpStatusMsg s)
    rw [if_pos h]
    rfl
  · intro m
    rfl

/-- Claim C8 witness: a concrete upstream HTTP 500 response escapes
`create_api_request` as an uncaught `requests.exceptions.HTTPError`. -/
theorem create_api_request_propagates_witness :
    createApiRequest (.response 500 .null) = .error (.requestsHTTPError, httpStatusMsg 500) :=
  create_api_request_propagates.1 500 .null (by decide)

theorem validateRecipeToolGo_blank_eq (cat : Catalog) (scorer : String → String → Nat)
    (i : Nat) (step : RecipeOp) (rest : List RecipeOp) (hname : pyStrip step.op = "") :
    validateRecipeToolGo cat scorer i (step :: rest)
      = (⟨i⟩ :: (validateRecipeToolGo cat scorer (i + 1) rest).1,
         (validateRecipeToolGo cat scorer (i + 1) rest).2.1,
         (validateRecipeToolGo cat scorer (i + 1) rest).2.2) := by
  conv_lhs => rw [show validateRecipeToolGo cat scorer i (step :: rest)
    = (if pyStrip step.op = "" then
      (⟨i⟩ :: (validateRecipeToolGo cat scorer (i + 1) rest).1,
       (validateRecipeToolGo cat scorer (i + 1) rest).2.1,
       (validateRecipeToolGo cat scorer (i + 1) rest).2.2)
    else
      match catFind cat (pyStrip step.op) with
      | none =>
        ((validateRecipeToolGo cat scorer (i + 1) rest).1,
         { index := i, op := pyStrip step.op,
           candidates := some ((processExtract scorer (pyStrip step.op)
             (cat.map (·.1)) 5).map (·.1)),
           missingArgs := none } :: (validateRecipeToolGo cat scorer (i + 1) rest).2.1,
         (validateRecipeToolGo cat scorer (i + 1) rest).2.2)
      | some d =>
        ((validateRecipeToolGo cat scorer (i + 1) rest).1,
         (if ((step.args.map (·.1)).filter
              (fun k => !((d.args.map ArgDef.name).contains k))).isEmpty then []
          else [{ index := i, op := pyStrip step.op, candidates := none,
                  missingArgs := none }])
          ++ (if ((d.args.map ArgDef.name).filter
              (fun k => !((step.args.map (·.1)).contains k))).isEmpty then []
          else [{ index := i, op := pyStrip step.op, candidates := none,
                  missingArgs := some ((d.args.map ArgDef.name).filter
                    (fun k => !((step.args.map (·.1)).contains k))) }])
          ++ (validateRecipeToolGo cat scorer (i + 1) rest).2.1,
         step :: (validateRecipeToolGo cat scorer (i + 1) rest).2.2)) from rfl]
  rw [if_pos hname]

theorem validateRecipeToolGo_unknown_eq (cat : Catalog) (scorer : String → String → Nat)
    (i : Nat) (step : RecipeOp) (rest : List RecipeOp) (hname : ¬ pyStrip step.op = "")
    (hc : catFind cat (pyStrip step.op) = none) :
    validateRecipeToolGo cat scorer i (step :: rest)
      = ((validateRecipeToolGo cat scorer (i + 1) rest).1,
         { index := i, op := pyStrip step.op,
           candidates := some ((processExtract scorer (pyStrip step.op)
             (cat.map (·.1)) 5).map (·.1)),
           missingArgs := none } :: (validateRecipeToolGo cat scorer (i + 1) rest).2.1,
         (validateRecipeToolGo cat scorer (i + 1) rest).2.2) := by
  conv_lhs => rw [show validateRecipeToolGo cat scorer i (step :: rest)
    = (if pyStrip step.op = "" then
      (⟨i⟩ :: (validateRecipeToolGo cat scorer (i + 1) rest).1,
       (validateRecipeToolGo cat scorer (i + 1) rest).2.1,
       (validateRecipeToolGo cat scorer (i + 1) rest).2.2)
    else
      match catFind cat (pyStrip step.op) with
      | none =>
        ((validateRecipeToolGo cat scorer (i + 1) rest).1,
         { index := i, op := pyStrip step.op,
           candidates := some ((processExtract scorer (pyStrip step.op)
             (cat.map (·.1)) 5).map (·.1)),
           missingArgs := none } :: (validateRecipeToolGo cat scorer (i + 1) rest).2.1,
         (validateRecipeToolGo cat scorer (i + 1) rest).2.2)
      | some d =>
        ((validateRecipeToolGo cat scorer (i + 1) rest).1,
         (if ((step.args.map (·.1)).filter
              (fun k => !((d.args.map ArgDef.name).contains k))).isEmpty then []
          else [{ index := i, op := pyStrip step.op, candidates := none,
                  missingArgs := none }])
          ++ (if ((d.args.map ArgDef.name).filter
              (fun k => !((step.args.map (·.1)).contains k))).isEmpty then []
          else [{ index := i, op := pyStrip step.op, candidates := none,
                  missingArgs := some ((d.args.map ArgDef.name).filter
                    (fun k => !((step.args.map (·.1)).contains k))) }])
          ++ (validateRecipeToolGo cat scorer (i + 1) rest).2.1,
         step :: (validateRecipeToolGo cat scorer (i + 1) rest).2.2)) from rfl]
  rw [if_neg hname, hc]

theorem validateRecipeToolGo_known_eq (cat : Catalog) (scorer : String → String → Nat)
    (i : Nat) (step : RecipeOp) (rest : List RecipeOp) (d : OperationDef)
    (hname : ¬ pyStrip step.op = "") (hc : catFind cat (pyStrip step.op) = some d) :
    validateRecipeToolGo cat scorer i (step :: rest)
      = ((validateRecipeToolGo cat scorer (i + 1) rest).1,
         (if ((step.args.map (·.1)).filter
              (fun k => !((d.args.map ArgDef.name).contains k))).isEmpty then []
          else [{ index := i, op := pyStrip step.op, candidates := none,
                  missingArgs := none }])
          ++ (if ((d.args.map ArgDef.name).filter
              (fun k => !((step.args.map (·.1)).contains k))).isEmpty then []
          else [{ index := i, op := pyStrip step.op, candidates := none,
                  missingArgs := some ((d.args.map ArgDef.name).filter
                    (fun k => !((step.args.map (·.1)).contains k))) }])
          ++ (validateRecipeToolGo cat scorer (i + 1) rest).2.1,
         step :: (validateRecipeToolGo cat scorer (i + 1) rest).2.2) := by
  conv_lhs => rw [show validateRecipeToolGo cat scorer i (step :: rest)
    = (if pyStrip step.op = "" then
      (⟨i⟩ :: (validateRecipeToolGo cat scorer (i + 1) rest).1,
       (validateRecipeToolGo cat scorer (i + 1) rest).2.1,
       (validateRecipeToolGo cat scorer (i + 1) rest).2.2)
    else
      match catFind cat (pyStrip step.op) with
      | none =>
        ((validateRecipeToolGo cat scorer (i + 1) rest).1,
         { index := i, op := pyStrip step.op,
           candidates := some ((processExtract scorer (pyStrip step.op)
             (cat.map (·.1)) 5).map (·.1)),
           missingArgs := none } :: (validateRecipeToolGo cat scorer (i + 1) rest).2.1,
         (validateRecipeToolGo cat scorer (i + 1) rest).2.2)
      | some d =>
        ((validateRecipeToolGo cat scorer (i + 1) rest).1,
         (if ((step.args.map (·.1)).filter
              (fun k => !((d.args.map ArgDef.name).contains k))).isEmpty then []
          else [{ index := i, op := pyStrip step.op, candidates := none,
                  missingArgs := none }])
          ++ (if ((d.args.map ArgDef.name).filter
              (fun k => !((step.args.map (·.1)).contains k))).isEmpty then []
          else [{ index := i, op := pyStrip step.op, candidates := none,
                  missingArgs := some ((d.args.map ArgDef.name).filter
                    (fun k => !((step.args.map (·.1)).contains k))) }])
          ++ (validateRecipeToolGo cat scorer (i + 1) rest).2.1,
         step :: (validateRecipeToolGo cat scorer (i + 1) rest).2.2)) from rfl]
  rw [if_neg hname, hc]

theorem validateRecipeToolGo_coverage (cat : Catalog) (scorer : String → String → Nat) :
    ∀ (steps : List RecipeOp) (j i : Nat) (step : RecipeOp), steps.get? i = some step →
      step ∈ (validateRecipeToolGo cat scorer j steps).2.2 ∨
      (∃ e ∈ (validateRecipeToolGo cat scorer j steps).1, e.index = j + i) ∨
      (∃ s ∈ (validateRecipeToolGo cat scorer j steps).2.1, s.index = j + i)
  | [], _, i, step, h => by simp at h
  | st :: rest, j, 0, step, h => by
    have hst : st = step := by simpa using h
    subst hst
    by_cases hname : pyStrip st.op = ""
    · rw [validateRecipeToolGo_blank_eq cat scorer j st rest hname]
      exact Or.inr (Or.inl ⟨⟨j⟩, List.mem_cons_self _ _, by simp⟩)
    · cases hc : catFind cat (pyStrip st.op) with
      | none =>
        rw [validateRecipeToolGo_unknown_eq cat scorer j st rest hname hc]
        exact Or.inr (Or.inr ⟨_, List.mem_cons_self _ _, by simp⟩)
      | some d =>
        rw [validateRecipeToolGo_known_eq cat scorer j st rest d hname hc]
        exact Or.inl (List.mem_cons_self _ _)
  | st :: rest, j, i + 1, step, h => by
    have h2 : rest.get? i = some step := by simpa using h
    have ih := validateRecipeToolGo_coverage cat scorer rest (j + 1) i step h2
    have hidx : (j + 1) + i = j + (i + 1) := by omega
    by_cases hname : pyStrip st.op = ""
    · rw [validateRecipeToolGo_blank_eq cat scorer j st rest hname]
      rcases ih with hn | ⟨e, he, hei⟩ | ⟨s, hs, hsi⟩
      · exact Or.inl hn
      · exact Or.inr (Or.inl ⟨e, List.mem_cons_of_mem _ he, by omega⟩)
      · exact Or.inr (Or.inr ⟨s, hs, by omega⟩)
    · cases hc : catFind cat (pyStrip st.op) with
      | none =>
        rw [validateRecipeToolGo_unknown_eq cat scorer j st rest hname hc]
        rcases ih with hn | ⟨e, he, hei⟩ | ⟨s, hs, hsi⟩
        · exact Or.inl hn
        · exact Or.inr (Or.inl ⟨e, he, by omega⟩)
        · exact Or.inr (Or.inr ⟨s, List.mem_cons_of_mem _ hs, by omega⟩)
      | some d =>
        rw [validateRecipeToolGo_known_eq cat scorer j st rest d hname hc]
        rcases ih with hn | ⟨e, he, hei⟩ | ⟨s, hs, hsi⟩
        · exact Or.inl (List.mem_cons_of_mem _ hn)
        · exact Or.inr (Or.inl ⟨e, he, by omega⟩)
        · exact Or.inr (Or.inr ⟨s, List.mem_append.mpr (Or.inr hs), by omega⟩)

/-- Claim C9: the advisory `validate_recipe` tool is a total function of its
input (it never raises), and every input step is covered: it either appears
in `normalized` or an entry of `errors` or `suggestions` carries its index. -/
theorem validate_recipe_coverage (cat : Catalog) (scorer : String → String → Nat)
    (recipe : List RecipeOp) (i : Nat) (step : RecipeOp)
    (h : recipe.get? i = some step) :
    step ∈ (validateRecipeTool cat scorer recipe).normalized ∨
    (∃ e ∈ (validateRecipeTool cat scorer recipe).errors, e.index = i) ∨
    (∃ s ∈ (validateRecipeTool cat scorer recipe).suggestions, s.index = i) := by
  have h0 := validateRecipeToolGo_coverage cat scorer recipe 0 i step h
  simpa using h0

/-- Claim C9 witness: a recipe whose three steps hit all branches — a blank
name, an unknown name, and a known operation — is fully covered. -/
theorem validate_recipe_coverage_witness :
    (⟨"", []⟩ : RecipeOp) ∈ (validateRecipeTool demoValCat zeroScorer
        [⟨"", []⟩, ⟨"Nope", []⟩, ⟨"From Base64", []⟩]).normalized ∨
    (∃ e ∈ (validateRecipeTool demoValCat zeroScorer
        [⟨"", []⟩, ⟨"Nope", []⟩, ⟨"From Base64", []⟩]).errors, e.index = 0) ∨
    (∃ s ∈ (validateRecipeTool demoValCat zeroScorer
        [⟨"", []⟩, ⟨"Nope", []⟩, ⟨"From Base64", []⟩]).suggestions, s.index = 0) :=
  validate_recipe_coverage demoValCat zeroScorer
    [⟨"", []⟩, ⟨"Nope", []⟩, ⟨"From Base64", []⟩] 0 ⟨"", []⟩ rfl
